import Mathlib

/-!
Verification of the FoundationDB Data Distributor specification against the
source of `fdbserver/DataDistribution.actor.cpp`,
`fdbclient/include/fdbclient/TenantManagement.actor.h` and
`fdbclient/AuditUtils.actor.cpp`.

The C++ actors run on a single-threaded cooperative scheduler and mutate
state only between explicit await points, so each transactional operation is
embedded as a pure Lean function from state to state (a thrown error aborts
the enclosing transaction, hence an `Except` error result carries no state).
Byte-string keys of the audit/shard key space are abstracted to naturals
(only their total order matters for the claims); tenant names stay byte
lists because `startsWith "\xff"` checks inspect the first byte.
-/

deriving instance DecidableEq for Except

namespace FdbDD

/-- Association-list lookup, modelling a keyed read from the system key space. -/
def alookup {α β : Type} [DecidableEq α] : List (α × β) → α → Option β
  | [], _ => none
  | (k, v) :: rest, a => if k = a then some v else alookup rest a

/-- Association-list write, modelling `KeyBackedObjectMap::set`: replace the
value when the key is present, otherwise add the pair. -/
def aset {α β : Type} [DecidableEq α] : List (α × β) → α → β → List (α × β)
  | [], a, b => [(a, b)]
  | (k, v) :: rest, a, b => if k = a then (a, b) :: rest else (k, v) :: aset rest a b

/-- Association-list erase, modelling `KeyBackedObjectMap::erase`. -/
def aerase {α β : Type} [DecidableEq α] : List (α × β) → α → List (α × β)
  | [], _ => []
  | (k, v) :: rest, a => if k = a then aerase rest a else (k, v) :: aerase rest a

/-! ## Tenant lifecycle (fdbclient/include/fdbclient/TenantManagement.actor.h)

Tenant names and tenant-group names are byte strings, embedded as `List Nat`.
Every transactional helper is a pure function from the tenant metadata state
to `Except TenantError` of its result; an error result models a thrown error,
which aborts the enclosing transaction, so no writes survive it. -/

/-- Byte-string tenant name. -/
abbrev TenantName := List Nat

/-- Byte-string tenant-group name. -/
abbrev TenantGroupName := List Nat

/-- `ClusterType` (fdbclient): the role of this cluster in a metacluster. -/
inductive ClusterType
  | standalone
  | metaclusterManagement
  | metaclusterData
deriving DecidableEq, Repr

/-- `TenantMode` configuration values. -/
inductive TenantMode
  | disabled
  | optionalTenant
  | required
deriving DecidableEq, Repr

/-- Client-visible errors thrown by the tenant operations in
TenantManagement.actor.h. -/
inductive TenantError
  | invalidTenantName
  | invalidTenantGroupName
  | tenantAlreadyExists
  | tenantNotFound
  | tenantNotEmpty
  | tenantLocked
  | clusterNoCapacity
  | tenantsDisabled
  | invalidMetaclusterOperation
  | tenantPrefixAllocatorConflict
  | tenantCreationPermanentlyFailed
deriving DecidableEq, Repr

/-- The claim-relevant fields of `TenantMapEntry`. -/
structure TenantMapEntry where
  id : Nat
  tenantName : TenantName
  tenantGroup : Option TenantGroupName
  configurationSequenceNum : Nat
deriving DecidableEq, Repr

/-- `TenantTombstoneCleanupData`: the tombstone-cleanup watermark record. -/
structure TenantTombstoneCleanupData where
  tombstonesErasedThrough : Int
  nextTombstoneEraseVersion : Nat
  nextTombstoneEraseId : Int
deriving DecidableEq, Repr

/-- The persisted tenant metadata (`TenantMetadata` key-backed structures)
touched by the tenant lifecycle operations, plus the two environment facts a
transaction reads: the cluster's actual type (metacluster registration) and
its tenant mode. `nonEmptyTenantPrefixes` records which tenant-id prefix
ranges currently contain at least one user key (the result of the
`tr->getRange(prefixRange(entry.prefix), 1)` emptiness probes). -/
structure TenantMetadataState where
  tenantMap : List (Nat × TenantMapEntry)
  tenantNameIndex : List (TenantName × Nat)
  tenantCount : Int
  tenantGroupMap : List TenantGroupName
  tenantGroupTenantIndex : List (TenantGroupName × TenantName × Nat)
  tenantTombstones : List Nat
  tombstoneCleanupData : Option TenantTombstoneCleanupData
  tenantIdPrefixValue : Nat
  nonEmptyTenantPrefixes : List Nat
  tenantMode : TenantMode
  actualClusterType : ClusterType
deriving DecidableEq, Repr

/-- `name.startsWith("\xff"_sr)`. -/
def startsWithFF (name : List Nat) : Bool := name.head? = some 0xff

/-- `checkTenantMode` (TenantManagement.actor.h 108-126): fail when the
cluster type differs from the expected one, or when tenants are disabled on a
standalone cluster. -/
def checkTenantMode (s : TenantMetadataState) (expectedClusterType : ClusterType) :
    Except TenantError Unit :=
  if s.actualClusterType ≠ expectedClusterType then .error .invalidMetaclusterOperation
  else if s.actualClusterType = .standalone ∧ s.tenantMode = .disabled then
    .error .tenantsDisabled
  else .ok ()

/-- `checkTombstone` (TenantManagement.actor.h 149-164): error out when the
cleanup watermark has already passed the id, otherwise report whether the id
is in the tombstone set. -/
def checkTombstone (s : TenantMetadataState) (id : Nat) : Except TenantError Bool :=
  match s.tombstoneCleanupData with
  | some cleanupData =>
    if cleanupData.tombstonesErasedThrough ≥ (id : Int) then
      .error .tenantCreationPermanentlyFailed
    else .ok (s.tenantTombstones.contains id)
  | none => .ok (s.tenantTombstones.contains id)

/-- `tryGetTenantTransaction` by name (TenantManagement.actor.h 52-62):
follow the name index into the tenant map. -/
def tryGetTenantByName (s : TenantMetadataState) (name : TenantName) :
    Option TenantMapEntry :=
  match alookup s.tenantNameIndex name with
  | some tenantId => alookup s.tenantMap tenantId
  | none => none

/-- Result of `createTenantTransaction`: the post-transaction state plus the
`std::pair<Optional<TenantMapEntry>, bool>` the actor returns. -/
structure CreateTenantResult where
  state : TenantMetadataState
  entry : Option TenantMapEntry
  created : Bool
deriving DecidableEq, Repr

/-- Insertion of one tenant into the tenant-group index together with
creation of the group map entry when it does not already exist
(TenantManagement.actor.h 220-229, and the same update at 519-535 in
`configureTenantTransaction`): the group-map existence probe reads the map
before these writes. -/
def addTenantToGroupIndexThenMap (s : TenantMetadataState) (g : TenantGroupName)
    (name : TenantName) (tenantId : Nat) : TenantMetadataState :=
  if s.tenantGroupMap.contains g then
    { s with tenantGroupTenantIndex := s.tenantGroupTenantIndex ++ [(g, name, tenantId)] }
  else
    { s with tenantGroupTenantIndex := s.tenantGroupTenantIndex ++ [(g, name, tenantId)],
             tenantGroupMap := s.tenantGroupMap ++ [g] }

/-- The writes of a successful `createTenantTransaction`
(TenantManagement.actor.h 216-232): set the id map and name index rows,
update the group structures when a group is requested, and increment the
tenant count. -/
def createTenantWrites (s : TenantMetadataState) (tenantEntry : TenantMapEntry) :
    TenantMetadataState :=
  let s2 :=
    match tenantEntry.tenantGroup with
    | some g =>
      addTenantToGroupIndexThenMap
        { s with tenantMap := aset s.tenantMap tenantEntry.id tenantEntry,
                 tenantNameIndex :=
                   aset s.tenantNameIndex tenantEntry.tenantName tenantEntry.id }
        g tenantEntry.tenantName tenantEntry.id
    | none =>
      { s with tenantMap := aset s.tenantMap tenantEntry.id tenantEntry,
               tenantNameIndex :=
                 aset s.tenantNameIndex tenantEntry.tenantName tenantEntry.id }
  { s2 with tenantCount := s2.tenantCount + 1 }

/-- `createTenantTransaction` (TenantManagement.actor.h 168-243). The checks
run in the order the actor awaits them: name/group validity, tenant mode,
existing name (early `(existing, false)` return), tombstone (early
`(empty, false)` return), prefix-range emptiness, then the writes of
`createTenantWrites` and the capacity check on the incremented count. -/
def createTenantTransaction (s : TenantMetadataState) (tenantEntry : TenantMapEntry)
    (clusterType : ClusterType) (maxTenantsPerCluster : Int) :
    Except TenantError CreateTenantResult :=
  if startsWithFF tenantEntry.tenantName then .error .invalidTenantName
  else if (tenantEntry.tenantGroup.map startsWithFF).getD false then
    .error .invalidTenantGroupName
  else
    match checkTenantMode s clusterType with
    | .error e => .error e
    | .ok () =>
      match tryGetTenantByName s tenantEntry.tenantName with
      | some existingEntry => .ok ⟨s, some existingEntry, false⟩
      | none =>
        match (if clusterType = .standalone then (.ok false : Except TenantError Bool)
               else checkTombstone s tenantEntry.id) with
        | .error e => .error e
        | .ok hasTombstone =>
          if hasTombstone then .ok ⟨s, none, false⟩
          else if s.nonEmptyTenantPrefixes.contains tenantEntry.id then
            .error .tenantPrefixAllocatorConflict
          else if (createTenantWrites s tenantEntry).tenantCount > maxTenantsPerCluster then
            .error .clusterNoCapacity
          else .ok ⟨createTenantWrites s tenantEntry, some tenantEntry, true⟩

/-- `createTenant` (TenantManagement.actor.h 263-325), one transaction
attempt with a caller-supplied tenant id (the `generateTenantId = false`
path): on every cluster type except a metacluster data cluster the driver
first rejects an already-indexed name with `tenant_already_exists`, then runs
`createTenantTransaction`. -/
def createTenant (s : TenantMetadataState) (name : TenantName)
    (tenantEntry : TenantMapEntry) (clusterType : ClusterType)
    (maxTenantsPerCluster : Int) : Except TenantError CreateTenantResult :=
  let checkExistence := clusterType ≠ .metaclusterData
  let entry := { tenantEntry with tenantName := name }
  if checkExistence ∧ (alookup s.tenantNameIndex name).isSome then
    .error .tenantAlreadyExists
  else createTenantTransaction s entry clusterType maxTenantsPerCluster

/-- Modelled from the spec: `getTenantIdPrefix` is declared in
TenantManagement.actor.h (line 134) but defined in TenantManagement.cpp,
which is absent from this snapshot. The spec fixes the layout — "id (64-bit,
high 16 bits are a cluster-assigned prefix)" — and `getNextTenantId` (line
252) shifts the prefix left by 48 bits, so the prefix of an id is its value
shifted right by 48 bits. -/
def getTenantIdPrefix (id : Nat) : Nat := id >>> 48

/-- `KeyBackedSet::insert` on the tombstone set: setting a key is idempotent. -/
def tombstoneInsert (tombstones : List Nat) (id : Nat) : List Nat :=
  if tombstones.contains id then tombstones else tombstones ++ [id]

/-- The effect of `markTenantTombstones` (TenantManagement.actor.h 327-379)
on the only two structures it writes: the tombstone set and the cleanup data.
The `latestTombstoneFuture` range read is issued before the erase, so it
observes the pre-cleanup tombstone set. -/
def markTenantTombstonesFields (tombstones : List Nat)
    (cleanupDataIn : Option TenantTombstoneCleanupData) (prefixValue tenantId : Nat)
    (transactionReadVersion tombstoneCleanupInterval versionsPerSecond : Nat) :
    List Nat × Option TenantTombstoneCleanupData :=
  if prefixValue ≠ getTenantIdPrefix tenantId then (tombstones, cleanupDataIn)
  else
    let latestTombstone : Option Nat := tombstones.max?
    let doCleanup :=
      match cleanupDataIn with
      | none => true
      | some cleanupData => cleanupData.nextTombstoneEraseVersion ≤ transactionReadVersion
    if doCleanup then
      let deleteThroughId : Int :=
        match cleanupDataIn with
        | some cleanupData => cleanupData.nextTombstoneEraseId
        | none => -1
      let tombstones1 :=
        if deleteThroughId ≥ 0 then
          tombstones.filter (fun (t : Nat) => ¬((t : Int) ≤ deleteThroughId))
        else tombstones
      let nextDeleteThroughId :=
        match latestTombstone with
        | some latest => max (max deleteThroughId (tenantId : Int)) (latest : Int)
        | none => max deleteThroughId (tenantId : Int)
      let updatedCleanupData : TenantTombstoneCleanupData :=
        { tombstonesErasedThrough := deleteThroughId,
          nextTombstoneEraseVersion :=
            transactionReadVersion + tombstoneCleanupInterval * versionsPerSecond,
          nextTombstoneEraseId := nextDeleteThroughId }
      let tombstones2 :=
        if (tenantId : Int) > updatedCleanupData.tombstonesErasedThrough then
          tombstoneInsert tombstones1 tenantId
        else tombstones1
      (tombstones2, some updatedCleanupData)
    else
      match cleanupDataIn with
      | some cleanupData =>
        if (tenantId : Int) > cleanupData.tombstonesErasedThrough then
          (tombstoneInsert tombstones tenantId, cleanupDataIn)
        else (tombstones, cleanupDataIn)
      | none => (tombstones, cleanupDataIn)

/-- `markTenantTombstones` (TenantManagement.actor.h 327-379): apply
`markTenantTombstonesFields` to the state. -/
def markTenantTombstones (s : TenantMetadataState) (tenantId : Nat)
    (transactionReadVersion tombstoneCleanupInterval versionsPerSecond : Nat) :
    TenantMetadataState :=
  let fields := markTenantTombstonesFields s.tenantTombstones s.tombstoneCleanupData
    s.tenantIdPrefixValue tenantId transactionReadVersion tombstoneCleanupInterval
    versionsPerSecond
  { s with tenantTombstones := fields.1, tombstoneCleanupData := fields.2 }

/-- The shared group-removal logic of `deleteTenantTransaction`
(TenantManagement.actor.h 413-427) and `configureTenantTransaction`
(500-518): erase the `(group, name, id)` tuple from the group-tenant index,
then read up to two remaining members of the group and erase the group map
entry when none remain (or only a stale row carrying the removed id). -/
def lastTenantInGroup (groupIdx : List (TenantGroupName × TenantName × Nat))
    (g : TenantGroupName) (name : TenantName) (tenantId : Nat) : Bool :=
  let tenantsInGroup :=
    (((groupIdx.filter (fun t => t ≠ (g, name, tenantId))).filter
      (fun t => t.1 = g)).take 2)
  tenantsInGroup.isEmpty ||
    (tenantsInGroup.length = 1 &&
      (tenantsInGroup.head?.map (fun t => t.2.2)) = some tenantId)

def removeTenantFromGroupLists (groupMap : List TenantGroupName)
    (groupIdx : List (TenantGroupName × TenantName × Nat)) (g : TenantGroupName)
    (name : TenantName) (tenantId : Nat) :
    List TenantGroupName × List (TenantGroupName × TenantName × Nat) :=
  if lastTenantInGroup groupIdx g name tenantId then
    (groupMap.filter (fun g' => g' ≠ g),
      groupIdx.filter (fun t => t ≠ (g, name, tenantId)))
  else (groupMap, groupIdx.filter (fun t => t ≠ (g, name, tenantId)))

/-- `removeTenantFromGroupLists` applied to the state. -/
def removeTenantFromGroup (s : TenantMetadataState) (g : TenantGroupName)
    (name : TenantName) (tenantId : Nat) : TenantMetadataState :=
  let fields := removeTenantFromGroupLists s.tenantGroupMap s.tenantGroupTenantIndex
    g name tenantId
  { s with tenantGroupMap := fields.1, tenantGroupTenantIndex := fields.2 }

/-- The tenant-entry half of `deleteTenantTransaction`
(TenantManagement.actor.h 396-430): an absent id changes nothing; a present
tenant must have an empty prefix range, and then the id map row, name index
row, count and group structures are updated. -/
def deleteTenantEntryPart (s : TenantMetadataState) (tenantId : Nat) :
    Except TenantError TenantMetadataState :=
  match alookup s.tenantMap tenantId with
  | some tenantEntry =>
    if s.nonEmptyTenantPrefixes.contains tenantId then .error .tenantNotEmpty
    else
      match tenantEntry.tenantGroup with
      | some g =>
        .ok (removeTenantFromGroup
          { s with tenantMap := aerase s.tenantMap tenantId,
                   tenantNameIndex := aerase s.tenantNameIndex tenantEntry.tenantName,
                   tenantCount := s.tenantCount - 1 }
          g tenantEntry.tenantName tenantId)
      | none =>
        .ok { s with tenantMap := aerase s.tenantMap tenantId,
                     tenantNameIndex := aerase s.tenantNameIndex tenantEntry.tenantName,
                     tenantCount := s.tenantCount - 1 }
  | none => .ok s

/-- `deleteTenantTransaction` (TenantManagement.actor.h 384-437): the tenant
mode check, `deleteTenantEntryPart`, and on a metacluster data cluster
`markTenantTombstones` afterwards. -/
def deleteTenantTransaction (s : TenantMetadataState) (tenantId : Nat)
    (clusterType : ClusterType)
    (transactionReadVersion tombstoneCleanupInterval versionsPerSecond : Nat) :
    Except TenantError TenantMetadataState :=
  match checkTenantMode s clusterType with
  | .error e => .error e
  | .ok () =>
    match deleteTenantEntryPart s tenantId with
    | .error e => .error e
    | .ok s2 =>
      if clusterType = .metaclusterData then
        .ok (markTenantTombstones s2 tenantId transactionReadVersion
              tombstoneCleanupInterval versionsPerSecond)
      else .ok s2

/-- The group-structure updates of `configureTenantTransaction` when the
tenant group changed (TenantManagement.actor.h 500-535), applied to the state
`s1` that already holds the rewritten tenant map entry: remove the tenant
from the original group (erasing the group entry when it became empty), then
create the new group entry when absent and index the tenant under it. -/
def configureGroupWrites (s1 : TenantMetadataState)
    (originalEntry updatedTenantEntry : TenantMapEntry) : TenantMetadataState :=
  let s2 :=
    match originalEntry.tenantGroup with
    | some g => removeTenantFromGroup s1 g originalEntry.tenantName updatedTenantEntry.id
    | none => s1
  match updatedTenantEntry.tenantGroup with
  | some g =>
    addTenantToGroupIndexThenMap s2 g updatedTenantEntry.tenantName updatedTenantEntry.id
  | none => s2

/-- `configureTenantTransaction` (TenantManagement.actor.h 484-542): replace
the entry in place; when the tenant group changed, validate the new group
name and apply `configureGroupWrites`. -/
def configureTenantTransaction (s : TenantMetadataState)
    (originalEntry updatedTenantEntry : TenantMapEntry) :
    Except TenantError TenantMetadataState :=
  if originalEntry.tenantGroup ≠ updatedTenantEntry.tenantGroup then
    if (updatedTenantEntry.tenantGroup.map startsWithFF).getD false then
      .error .invalidTenantGroupName
    else
      .ok (configureGroupWrites
        { s with tenantMap := aset s.tenantMap updatedTenantEntry.id updatedTenantEntry }
        originalEntry updatedTenantEntry)
  else
    .ok { s with tenantMap := aset s.tenantMap updatedTenantEntry.id updatedTenantEntry }

/-- The writes of a successful rename (TenantManagement.actor.h 710-724):
rewrite the entry under the new name, move the name index row, and move the
group index tuple when the tenant belongs to a group. -/
def renameWrites (s : TenantMetadataState) (oldName newName : TenantName)
    (tenantId : Nat) (entry1 : TenantMapEntry) : TenantMetadataState :=
  match entry1.tenantGroup with
  | some g =>
    { s with
      tenantMap := aset s.tenantMap tenantId { entry1 with tenantName := newName },
      tenantNameIndex := aerase (aset s.tenantNameIndex newName tenantId) oldName,
      tenantGroupTenantIndex :=
        (s.tenantGroupTenantIndex.filter (fun t => t ≠ (g, oldName, tenantId))) ++
          [(g, newName, tenantId)] }
  | none =>
    { s with
      tenantMap := aset s.tenantMap tenantId { entry1 with tenantName := newName },
      tenantNameIndex := aerase (aset s.tenantNameIndex newName tenantId) oldName }

/-- `renameTenantTransaction` (TenantManagement.actor.h 664-731): resolve the
tenant id (from the old name when not supplied), require the entry to carry
the old name and the new name to be unindexed, then rewrite the entry, move
the name index row and the group index tuple, and on a metacluster data
cluster record tombstones. -/
def renameTenantTransaction (s : TenantMetadataState) (oldName newName : TenantName)
    (tenantIdIn : Option Nat) (clusterType : ClusterType)
    (configureSequenceNum : Option Nat)
    (transactionReadVersion tombstoneCleanupInterval versionsPerSecond : Nat) :
    Except TenantError TenantMetadataState :=
  match checkTenantMode s clusterType with
  | .error e => .error e
  | .ok () =>
    let tenantIdOpt :=
      match tenantIdIn with
      | some tenantId => some tenantId
      | none => alookup s.tenantNameIndex oldName
    match tenantIdOpt with
    | none => .error .tenantNotFound
    | some tenantId =>
      match alookup s.tenantMap tenantId with
      | none => .error .tenantNotFound
      | some entry =>
        let newNameId := alookup s.tenantNameIndex newName
        if entry.tenantName ≠ oldName then .error .tenantNotFound
        else if newNameId.isSome then .error .tenantAlreadyExists
        else
          let finish (s2 : TenantMetadataState) : TenantMetadataState :=
            if clusterType = .metaclusterData then
              markTenantTombstones s2 tenantId transactionReadVersion
                tombstoneCleanupInterval versionsPerSecond
            else s2
          match configureSequenceNum with
          | some seq =>
            if entry.configurationSequenceNum > seq then .ok s
            else .ok (finish (renameWrites s oldName newName tenantId
              { entry with configurationSequenceNum := seq }))
          | none => .ok (finish (renameWrites s oldName newName tenantId entry))

/-- Outcome of one retried iteration of the `renameTenant` driver loop. -/
inductive RenameRetryOutcome
  | silentSuccess
  | renamed (s' : TenantMetadataState)
  | failed (e : TenantError)
deriving DecidableEq, Repr

/-- One retried iteration (`firstTry == false`) of the `renameTenant` driver
loop (TenantManagement.actor.h 733-784) on a standalone cluster, after the
tenant id was bound in the first attempt: a missing entry throws
`tenant_not_found`; an entry already carrying the new name returns silently;
an entry carrying neither name throws `tenant_not_found`; a new name indexed
to a different tenant throws `tenant_already_exists`; otherwise
`renameTenantTransaction` performs the rename. -/
def renameTenantRetryStep (s : TenantMetadataState) (oldName newName : TenantName)
    (tenantId : Nat)
    (transactionReadVersion tombstoneCleanupInterval versionsPerSecond : Nat) :
    RenameRetryOutcome :=
  match alookup s.tenantMap tenantId with
  | none => .failed .tenantNotFound
  | some entry =>
    let newNameId := alookup s.tenantNameIndex newName
    if entry.tenantName = newName then .silentSuccess
    else if entry.tenantName ≠ oldName then .failed .tenantNotFound
    else if newNameId.isSome ∧ newNameId ≠ some tenantId then .failed .tenantAlreadyExists
    else
      match renameTenantTransaction s oldName newName (some tenantId) .standalone none
          transactionReadVersion tombstoneCleanupInterval versionsPerSecond with
      | .ok s' => .renamed s'
      | .error e => .failed e

/-! ## Audit storage engine (fdbserver/DataDistribution.actor.cpp and
fdbclient/AuditUtils.actor.cpp)

Keys of the audit/shard key space are abstracted to naturals; only their
total order is used. -/

/-- A key range `[beginK, endK)`; the source fields are `begin` and `end`. -/
structure KeyRange where
  beginK : Nat
  endK : Nat
deriving DecidableEq, Repr

/-- `KeyRangeRef::contains(KeyRangeRef const& r)`:
`begin <= r.begin && r.end <= end`. -/
def KeyRange.containsRange (a r : KeyRange) : Bool :=
  a.beginK ≤ r.beginK && r.endK ≤ a.endK

/-- `AuditType` of an audit storage job. -/
inductive AuditType
  | validateHA
  | validateReplica
  | validateLocationMetadata
  | validateStorageServerShard
deriving DecidableEq, Repr

/-- `AuditPhase` of a persisted audit state. -/
inductive AuditPhase
  | invalid
  | running
  | complete
  | error
  | failed
deriving DecidableEq, Repr

/-- The claim-relevant projection of an in-memory `DDAudit` held in
`dd->audits[type]`: its id and requested range. -/
structure DDAuditEntry where
  id : Nat
  range : KeyRange
deriving DecidableEq, Repr

/-- The largest audit id persisted in one type's key space (the reverse range
read of `persistNewAuditState`), `0` when the key space is empty. -/
def maxPersistedAuditId (persistedIds : List Nat) : Nat :=
  persistedIds.foldr Nat.max 0

/-- `persistNewAuditState` (AuditUtils.actor.cpp 323-392): the fresh audit id
is the largest persisted id of the type plus one (`nextId = 1` when the
type's key space holds no audit). -/
def persistNewAuditStateId (persistedIds : List Nat) : Nat :=
  maxPersistedAuditId persistedIds + 1

/-- Result of a `launchAudit` request. -/
inductive LaunchAuditResult
  | existing (id : Nat)
  | exceededRequestLimit
  | launchedNew (id : Nat)
deriving DecidableEq, Repr

/-- `launchAudit` (DataDistribution.actor.cpp 1988-2087): when any live audit
of the type exists, return the id of the first one whose range contains the
request, or fail with `audit_storage_exceeded_request_limit` when none does;
only when no live audit of the type exists is a fresh id persisted and a new
audit started. `auditsOfType` lists `dd->audits[type]` in map (id) order, and
`persistedIdsOfType` the ids present under `auditKeyRange(type)`. -/
def launchAudit (auditsOfType : List DDAuditEntry) (persistedIdsOfType : List Nat)
    (auditRange : KeyRange) : LaunchAuditResult :=
  if !auditsOfType.isEmpty then
    match auditsOfType.find? (fun a => a.range.containsRange auditRange) with
    | some audit => .existing audit.id
    | none => .exceededRequestLimit
  else
    .launchedNew (persistNewAuditStateId persistedIdsOfType)

/-- Errors reaching the `auditStorageCore` exception handler. -/
inductive AuditCoreError
  | retryError
  | movekeysConflict
  | auditStorageCancelled
  | notImplemented
  | otherError
deriving DecidableEq, Repr

/-- How one generation of `auditStorageCore` ends. -/
inductive AuditCoreOutcome
  | persistedRemoved (phase : AuditPhase)
  | removedSilently
  | leftToCanceller
  | retried (newRetryCount : Nat)
deriving DecidableEq, Repr

/-- The three range-based audit types whose persisted per-range progress is
re-checked before completion. -/
def isRangeBasedType : AuditType → Bool
  | .validateHA | .validateReplica | .validateLocationMetadata => true
  | .validateStorageServerShard => false

/-- The decision `auditStorageCore` takes once `audit->actors.getResult()`
settles (DataDistribution.actor.cpp 1825-1845): a latched `foundError` sets
phase `Error`; a failed child raises the internal `retry()`; an incomplete
persisted progress for range-based types raises `retry()`; otherwise phase
`Complete`. -/
def auditStorageCoreSettle (auditType : AuditType)
    (foundError anyChildFailed progressComplete : Bool) :
    Except AuditCoreError AuditPhase :=
  if foundError then .ok .error
  else if anyChildFailed then .error .retryError
  else if isRangeBasedType auditType && !progressComplete then .error .retryError
  else .ok .complete

/-- The `auditStorageCore` exception handler (DataDistribution.actor.cpp
1871-1948): `movekeys_conflict` exits silently after removing the audit,
`audit_storage_cancelled` leaves removal to the canceller, any other error
retries while `retryCount < AUDIT_RETRY_COUNT_MAX` (and is not
`not_implemented`), and otherwise persists phase `Failed` and removes the
audit from the map. -/
def auditStorageCoreCatch (retryCount maxRetryCount : Nat) (e : AuditCoreError) :
    AuditCoreOutcome :=
  if e = .movekeysConflict then .removedSilently
  else if e = .auditStorageCancelled then .leftToCanceller
  else if retryCount < maxRetryCount ∧ e ≠ .notImplemented then .retried (retryCount + 1)
  else .persistedRemoved .failed

/-- One generation of `auditStorageCore` after all child tasks settle: the
settle decision, feeding any raised error to the exception handler. -/
def auditStorageCoreStep (auditType : AuditType)
    (foundError anyChildFailed progressComplete : Bool)
    (retryCount maxRetryCount : Nat) : AuditCoreOutcome :=
  match auditStorageCoreSettle auditType foundError anyChildFailed progressComplete with
  | .ok phase => .persistedRemoved phase
  | .error e => auditStorageCoreCatch retryCount maxRetryCount e

/-- The reactive audit-task budget `remainingBudgetForAuditTasks` of a live
`DDAudit`, together with the number of issued-but-unfinished
`doAuditOnStorageServer` tasks. -/
structure AuditBudget where
  remainingBudget : Int
  inFlightTasks : Nat
deriving DecidableEq, Repr

/-- Budget-relevant events of the audit schedulers. -/
inductive BudgetEvent
  | issueTask
  | taskCompleted
  | taskErrored
deriving DecidableEq, Repr

/-- The `DDAudit` constructor (DataDistribution.actor.cpp 92-95) initializes
`remainingBudgetForAuditTasks` to `CONCURRENT_AUDIT_TASK_COUNT_MAX`. -/
def budgetInit (maxBudget : Nat) : AuditBudget := ⟨maxBudget, 0⟩

/-- One budget transition. A scheduler issues a task only after its
`while (budget == 0) wait(onChange())` loop observed a positive budget, and
decrements by one with no await point in between
(`scheduleAuditOnRange` 2590-2605, `scheduleAuditStorageShardOnServer`
2322-2340); `doAuditOnStorageServer` increments by one when the task
completes (2686) and when it errors (2706). -/
def budgetStep (s : AuditBudget) : BudgetEvent → Option AuditBudget
  | .issueTask =>
    if 0 < s.remainingBudget then some ⟨s.remainingBudget - 1, s.inFlightTasks + 1⟩
    else none
  | .taskCompleted | .taskErrored =>
    if 0 < s.inFlightTasks then some ⟨s.remainingBudget + 1, s.inFlightTasks - 1⟩
    else none

/-- The budget states a live audit can reach from initialization through any
interleaving of issue/complete/error events at await points. -/
inductive BudgetReachable (maxBudget : Nat) : AuditBudget → Prop
  | init : BudgetReachable maxBudget (budgetInit maxBudget)
  | step {s s' : AuditBudget} {e : BudgetEvent} :
      BudgetReachable maxBudget s → budgetStep s e = some s' → BudgetReachable maxBudget s'

/-! ## Storage wiggler (fdbserver/DataDistribution.actor.cpp 180-224) -/

/-- The claim-relevant fields of `StorageMetadataType`: creation time
(abstracted from `double` to an integer time scale, preserving order) and the
configuration-correctness flag. -/
structure StorageMetadataType where
  createdTime : Int
  wrongConfigured : Bool
deriving DecidableEq, Repr

/-- `StorageWiggler::necessary` (DataDistribution.actor.cpp 209-211):
`metadata.wrongConfigured || (now() - metadata.createdTime >
DD_STORAGE_WIGGLE_MIN_SS_AGE_SEC)`. -/
def StorageWiggler.necessary (metadata : StorageMetadataType)
    (nowTime minSSAgeSec : Int) : Bool :=
  metadata.wrongConfigured || (nowTime - metadata.createdTime > minSSAgeSec)

/-- `StorageWiggler::getNextServerId` (DataDistribution.actor.cpp 213-224) on
the wiggle priority queue, whose top element heads the list: an empty queue
yields nothing; with `necessaryOnly` an unnecessary top is left in place and
nothing is returned; otherwise the top is popped and returned. -/
def StorageWiggler.getNextServerId (necessaryOnly : Bool) (nowTime minSSAgeSec : Int)
    (wigglePQ : List (StorageMetadataType × Nat)) :
    Option Nat × List (StorageMetadataType × Nat) :=
  match wigglePQ with
  | [] => (none, [])
  | (metadata, id) :: rest =>
    if necessaryOnly && !StorageWiggler.necessary metadata nowTime minSSAgeSec then
      (none, (metadata, id) :: rest)
    else (some id, rest)

/-! ## DD bootstrap: resumeFromShards (fdbserver/DataDistribution.actor.cpp
647-749) and its unit-test scenario (2846-2929) -/

/-- The initial-distribution shard record `DDShardInfo` (server ids and shard
ids abstracted to naturals). -/
structure DDShardInfo where
  key : Nat
  primarySrc : List Nat
  remoteSrc : List Nat
  primaryDest : List Nat
  remoteDest : List Nat
  srcId : Nat
  destId : Nat
  hasDest : Bool
deriving DecidableEq, Repr

/-- The distinguished `anonymousShardId` (a fixed reserved UID; its concrete
value only matters through equality tests). -/
def anonymousShardId : Nat := 0xFFFF

/-- Reasons attached to relocations emitted during shard resume. -/
inductive DataMovementReason
  | recoverMove
  | teamUnhealthy
  | splitShard
deriving DecidableEq, Repr

/-- Modelled from the spec: the priority knobs named by the spec and by the
`ResumeFromShard` test (`SERVER_KNOBS->PRIORITY_RECOVER_MOVE` etc.); their
numeric values live in Knobs.cpp, absent from this snapshot, and only the
constants' identities matter. -/
def PRIORITY_RECOVER_MOVE : Int := 110

/-- Modelled from the spec: see `PRIORITY_RECOVER_MOVE`. -/
def PRIORITY_TEAM_UNHEALTHY : Int := 700

/-- Modelled from the spec: see `PRIORITY_RECOVER_MOVE`. -/
def PRIORITY_SPLIT_SHARD : Int := 950

/-- Modelled from the spec: the `RelocateShard(keys, reason, relocateReason)`
constructor lives in DataDistribution.actor.h, absent from this snapshot. It
derives `priority` from the data-movement reason and leaves `cancelled`
false; the test at DataDistribution.actor.cpp 2915-2924 pins
`priority == SERVER_KNOBS->PRIORITY_RECOVER_MOVE` and `cancelled == false`
for the relocations emitted by `resumeFromShards`. -/
def dataMovementPriority : DataMovementReason → Int
  | .recoverMove => PRIORITY_RECOVER_MOVE
  | .teamUnhealthy => PRIORITY_TEAM_UNHEALTHY
  | .splitShard => PRIORITY_SPLIT_SHARD

/-- The claim-relevant fields of a `RelocateShard` sent to
`relocationProducer`. -/
structure RelocateShard where
  keys : KeyRange
  priority : Int
  cancelled : Bool
  reason : DataMovementReason
deriving DecidableEq, Repr

/-- Construction of the `RelocateShard` sent at
DataDistribution.actor.cpp 742 (see `dataMovementPriority`). -/
def mkRelocateShard (keys : KeyRange) (reason : DataMovementReason) : RelocateShard :=
  { keys := keys, priority := dataMovementPriority reason, cancelled := false,
    reason := reason }

/-- The configuration fields `resumeFromShards` reads. -/
structure DDConfiguration where
  usableRegions : Nat
  storageTeamSize : Nat
deriving DecidableEq, Repr

/-- The knobs `resumeFromShards` reads (`ddLargeTeamEnabled()` and
`SERVER_KNOBS->DD_MAX_SHARDS_ON_LARGE_TEAMS`). -/
structure ResumeKnobs where
  largeTeamEnabled : Bool
  ddMaxShardsOnLargeTeams : Nat
deriving DecidableEq, Repr

/-- The second custom-boundary loop of `resumeFromShards` (683-688): consume
the boundaries below `endKey`, splitting `[beginKey, endKey)` at each, and
return the subranges together with the remaining boundaries. -/
def collectRanges (customBoundaries : List Nat) (beginKey endKey : Nat) :
    List KeyRange × List Nat :=
  match customBoundaries with
  | [] => ([⟨beginKey, endKey⟩], [])
  | b :: rest =>
    if b < endKey then
      let (ranges, rest') := collectRanges rest b endKey
      (⟨beginKey, b⟩ :: ranges, rest')
    else ([⟨beginKey, endKey⟩], b :: rest)

/-- The per-shard health computation of `resumeFromShards` (705-708):
`primarySrc.size() != customReplicas`, or with more than one usable region
`remoteSrc.size() != customReplicas`. -/
def shardUnhealthy (cfg : DDConfiguration) (customReplicas : Nat)
    (iShard : DDShardInfo) : Bool :=
  (iShard.primarySrc.length ≠ customReplicas) ||
    (cfg.usableRegions > 1 && iShard.remoteSrc.length ≠ customReplicas)

/-- Processing of one subrange `keys` of one shard in `resumeFromShards`
(696-744): compute `customReplicas` from the user range config, the
`unhealthy` flag including the over-replication counter update, and emit the
relocation when `(ddLargeTeamEnabled() && (unhealthy || r > 0)) ||
(iShard.hasDest && iShard.destId == anonymousShardId)`. Returns the emitted
relocations and the updated over-replication counter. -/
def resumeShardRange (cfg : DDConfiguration) (knobs : ResumeKnobs)
    (replicationFactorAt : Nat → Option Nat) (iShard : DDShardInfo)
    (keys : KeyRange) (r overreplicatedCount : Nat) :
    List RelocateShard × Nat :=
  let customReplicas :=
    Nat.max cfg.storageTeamSize ((replicationFactorAt keys.beginK).getD 0)
  let unhealthy0 := shardUnhealthy cfg customReplicas iShard
  let overCondition :=
    !unhealthy0 && iShard.primarySrc.length > cfg.storageTeamSize
  let overreplicatedCount' :=
    if overCondition then overreplicatedCount + 1 else overreplicatedCount
  let unhealthy :=
    if overCondition && overreplicatedCount' > knobs.ddMaxShardsOnLargeTeams then true
    else unhealthy0
  let emit :=
    (knobs.largeTeamEnabled && (unhealthy || r > 0)) ||
      (iShard.hasDest && iShard.destId == anonymousShardId)
  let reason : DataMovementReason :=
    if unhealthy then .teamUnhealthy else if r > 0 then .splitShard else .recoverMove
  (if emit then [mkRelocateShard keys reason] else [], overreplicatedCount')

/-- The inner loop over one shard's subranges (`for r` at 696), with `r`
counting the subranges already processed. -/
def resumeRangesLoop (cfg : DDConfiguration) (knobs : ResumeKnobs)
    (replicationFactorAt : Nat → Option Nat) (iShard : DDShardInfo) :
    List KeyRange → Nat → Nat → List RelocateShard × Nat
  | [], _, overreplicatedCount => ([], overreplicatedCount)
  | keys :: rest, r, overreplicatedCount =>
    let (emitted, oc') :=
      resumeShardRange cfg knobs replicationFactorAt iShard keys r overreplicatedCount
    let (emittedRest, oc'') :=
      resumeRangesLoop cfg knobs replicationFactorAt iShard rest (r + 1) oc'
    (emitted ++ emittedRest, oc'')

/-- The main loop of `resumeFromShards` (674-747) over consecutive shard
pairs, threading the remaining custom boundaries and the over-replication
counter, collecting the relocations sent to `relocationProducer`. -/
def resumeFromShardsLoop (cfg : DDConfiguration) (knobs : ResumeKnobs)
    (replicationFactorAt : Nat → Option Nat) :
    List DDShardInfo → List Nat → Nat → List RelocateShard
  | iShard :: next :: rest, customBoundaries, overreplicatedCount =>
    let remaining := customBoundaries.dropWhile (fun b => b ≤ iShard.key)
    let (ranges, remaining') := collectRanges remaining iShard.key next.key
    let (emitted, oc') :=
      resumeRangesLoop cfg knobs replicationFactorAt iShard ranges 0 overreplicatedCount
    emitted ++ resumeFromShardsLoop cfg knobs replicationFactorAt (next :: rest) remaining' oc'
  | _, _, _ => []

/-- `resumeFromShards` (647-749), projected to the relocations it emits. -/
def resumeFromShards (cfg : DDConfiguration) (knobs : ResumeKnobs)
    (replicationFactorAt : Nat → Option Nat) (customBoundaries : List Nat)
    (shards : List DDShardInfo) : List RelocateShard :=
  resumeFromShardsLoop cfg knobs replicationFactorAt shards customBoundaries 0

/-- `data_distribution_test::doubleToNoLocationShardInfo` (2848-2856) with
`doubleToTestKey` abstracted to the identity on the natural index: shard and
src/dest ids are `anonymousShardId`, one primary source server, and a primary
destination exactly when `hasDest`. -/
def doubleToNoLocationShardInfo (d : Nat) (hasDest : Bool) : DDShardInfo :=
  { key := d, primarySrc := [d], remoteSrc := [],
    primaryDest := if hasDest then [d + 1] else [], remoteDest := [],
    srcId := anonymousShardId, destId := anonymousShardId, hasDest := hasDest }

/-- The final boundary entry `DDShardInfo(allKeys.end)` of the test's shard
list: key only, no sources, no destination. -/
def boundaryShardInfo (key : Nat) : DDShardInfo :=
  { key := key, primarySrc := [], remoteSrc := [], primaryDest := [],
    remoteDest := [], srcId := 0, destId := 0, hasDest := false }

/-- The shard list built by the `/DataDistribution/Initialization/
ResumeFromShard` test (2899-2910): shards `1..p` with a destination set,
shards `p+1..n` without, and the closing boundary entry. -/
def resumeTestShards (p n : Nat) : List DDShardInfo :=
  (List.range' 1 p).map (fun i => doubleToNoLocationShardInfo i true) ++
    ((List.range' (p + 1) (n - p)).map (fun i => doubleToNoLocationShardInfo i false) ++
      [boundaryShardInfo (n + 1)])

/-- The configuration the test uses: one region, team size one (2896-2897). -/
def resumeTestConfig : DDConfiguration := { usableRegions := 1, storageTeamSize := 1 }

/-! ## Invariants and concrete states -/

/-- The spec's tenant-group invariant over the two group structures: a group
entry exists iff at least one index tuple references the group. -/
def GroupLists (groupMap : List TenantGroupName)
    (groupIdx : List (TenantGroupName × TenantName × Nat)) : Prop :=
  ∀ g, g ∈ groupMap ↔ ∃ t ∈ groupIdx, t.1 = g

/-- Decidable form of the tenant-group invariant on a state. -/
def groupInvariantHolds (s : TenantMetadataState) : Bool :=
  s.tenantGroupMap.all (fun g => s.tenantGroupTenantIndex.any (fun t => t.1 = g)) &&
    s.tenantGroupTenantIndex.all (fun t => s.tenantGroupMap.any (fun g => g = t.1))

/-- Consistency of the group-tenant index with the tenant map: every tuple
`(g, n, i)` describes the tenant the map holds under id `i`. This holds at
every commit boundary and rules out stale index rows. -/
def tenantIndexConsistent (s : TenantMetadataState) : Bool :=
  s.tenantGroupTenantIndex.all (fun t =>
    match alookup s.tenantMap t.2.2 with
    | some e => e.tenantName = t.2.1 && e.tenantGroup = some t.1
    | none => false)

/-- The tenant map entry of the counterexample state for C4: id 3 named
`"a"`. -/
def c4ExistingEntry : TenantMapEntry :=
  { id := 3, tenantName := [97], tenantGroup := none, configurationSequenceNum := 0 }

/-- A standalone-cluster state whose name index already holds `"a"`. -/
def c4State : TenantMetadataState :=
  { tenantMap := [(3, c4ExistingEntry)], tenantNameIndex := [([97], 3)],
    tenantCount := 1, tenantGroupMap := [], tenantGroupTenantIndex := [],
    tenantTombstones := [], tombstoneCleanupData := none, tenantIdPrefixValue := 0,
    nonEmptyTenantPrefixes := [], tenantMode := .required,
    actualClusterType := .standalone }

/-- A creation request for the already-indexed name `"a"` under a fresh id. -/
def c4NewEntry : TenantMapEntry :=
  { id := 4, tenantName := [97], tenantGroup := none, configurationSequenceNum := 0 }

/-- A metacluster data cluster state for C7: a tombstone for id 7, watermark
`tombstonesErasedThrough = 3`. -/
def c7State : TenantMetadataState :=
  { tenantMap := [], tenantNameIndex := [], tenantCount := 0, tenantGroupMap := [],
    tenantGroupTenantIndex := [], tenantTombstones := [7],
    tombstoneCleanupData := some
      { tombstonesErasedThrough := 3, nextTombstoneEraseVersion := 0,
        nextTombstoneEraseId := 3 },
    tenantIdPrefixValue := 0, nonEmptyTenantPrefixes := [], tenantMode := .required,
    actualClusterType := .metaclusterData }

/-- A creation request on the data cluster for the tombstoned id 7. -/
def c7Entry : TenantMapEntry :=
  { id := 7, tenantName := [98], tenantGroup := none, configurationSequenceNum := 0 }

/-- A standalone-cluster state for C6 with tenant 5 named `"a"` in group
`"g"`. -/
def c6Entry : TenantMapEntry :=
  { id := 5, tenantName := [97], tenantGroup := some [103],
    configurationSequenceNum := 0 }

/-- The C6 state holding `c6Entry` with consistent name and group indexes. -/
def c6State : TenantMetadataState :=
  { tenantMap := [(5, c6Entry)], tenantNameIndex := [([97], 5)], tenantCount := 1,
    tenantGroupMap := [[103]], tenantGroupTenantIndex := [([103], [97], 5)],
    tenantTombstones := [], tombstoneCleanupData := none, tenantIdPrefixValue := 0,
    nonEmptyTenantPrefixes := [], tenantMode := .required,
    actualClusterType := .standalone }

/-- A creation request for a new tenant 4 named `"b"` in group `"g"`. -/
def c5CreateEntry : TenantMapEntry :=
  { id := 4, tenantName := [98], tenantGroup := some [103],
    configurationSequenceNum := 0 }

/-- The state `createTenantTransaction c4State c5CreateEntry` commits. -/
def c5CreateResultState : TenantMetadataState :=
  { tenantMap := [(3, c4ExistingEntry), (4, c5CreateEntry)],
    tenantNameIndex := [([97], 3), ([98], 4)], tenantCount := 2,
    tenantGroupMap := [[103]], tenantGroupTenantIndex := [([103], [98], 4)],
    tenantTombstones := [], tombstoneCleanupData := none, tenantIdPrefixValue := 0,
    nonEmptyTenantPrefixes := [], tenantMode := .required,
    actualClusterType := .standalone }

/-- The state after deleting tenant 5 (the last member of group `"g"`) from
`c6State`. -/
def c5DeleteResultState : TenantMetadataState :=
  { tenantMap := [], tenantNameIndex := [], tenantCount := 0, tenantGroupMap := [],
    tenantGroupTenantIndex := [], tenantTombstones := [], tombstoneCleanupData := none,
    tenantIdPrefixValue := 0, nonEmptyTenantPrefixes := [], tenantMode := .required,
    actualClusterType := .standalone }

/-- The reconfiguration of `c6Entry` into group `"h"`. -/
def c5ConfigureUpdatedEntry : TenantMapEntry :=
  { id := 5, tenantName := [97], tenantGroup := some [104],
    configurationSequenceNum := 0 }

/-- The state after moving tenant 5 from group `"g"` to group `"h"` in
`c6State`. -/
def c5ConfigureResultState : TenantMetadataState :=
  { tenantMap := [(5, c5ConfigureUpdatedEntry)], tenantNameIndex := [([97], 5)],
    tenantCount := 1, tenantGroupMap := [[104]],
    tenantGroupTenantIndex := [([104], [97], 5)], tenantTombstones := [],
    tombstoneCleanupData := none, tenantIdPrefixValue := 0,
    nonEmptyTenantPrefixes := [], tenantMode := .required,
    actualClusterType := .standalone }

/-- The entry of tenant 5 (named `"a"`, no group) in `c6RetryState`. -/
def c6RetryEntry : TenantMapEntry :=
  { id := 5, tenantName := [97], tenantGroup := none,
    configurationSequenceNum := 0 }

/-- A standalone-cluster state for the C6 retry counterexample: tenant 5
named `"a"`, the first rename's commit not applied. -/
def c6RetryState : TenantMetadataState :=
  { tenantMap := [(5, c6RetryEntry)],
    tenantNameIndex := [([97], 5)], tenantCount := 1, tenantGroupMap := [],
    tenantGroupTenantIndex := [], tenantTombstones := [],
    tombstoneCleanupData := none, tenantIdPrefixValue := 0,
    nonEmptyTenantPrefixes := [], tenantMode := .required,
    actualClusterType := .standalone }

/-! ## Theorems -/

theorem alookup_aset {α β : Type} [DecidableEq α] (l : List (α × β)) (a : α) (b : β) :
    alookup (aset l a b) a = some b := by
  induction l with
  | nil => simp [aset, alookup]
  | cons hd tl ih =>
    obtain ⟨k, v⟩ := hd
    by_cases h : k = a
    · simp [aset, alookup, h]
    · simp [aset, alookup, h, ih]

theorem alookup_aset_ne {α β : Type} [DecidableEq α] (l : List (α × β)) (a a' : α) (b : β)
    (h : a ≠ a') : alookup (aset l a b) a' = alookup l a' := by
  induction l with
  | nil => simp [aset, alookup, h]
  | cons hd tl ih =>
    obtain ⟨k, v⟩ := hd
    by_cases hk : k = a
    · subst hk
      simp [aset, alookup, h]
    · simp [aset, alookup, hk, ih]

theorem alookup_aerase_self {α β : Type} [DecidableEq α] (l : List (α × β)) (a : α) :
    alookup (aerase l a) a = none := by
  induction l with
  | nil => simp [aerase, alookup]
  | cons hd tl ih =>
    obtain ⟨k, v⟩ := hd
    by_cases h : k = a
    · simp [aerase, h, ih]
    · simp [aerase, alookup, h, ih]

theorem alookup_aerase_ne {α β : Type} [DecidableEq α] (l : List (α × β)) (a a' : α)
    (h : a ≠ a') : alookup (aerase l a) a' = alookup l a' := by
  induction l with
  | nil => simp [aerase]
  | cons hd tl ih =>
    obtain ⟨k, v⟩ := hd
    by_cases hk : k = a
    · subst hk
      simp [aerase, alookup, h, ih]
    · simp [aerase, alookup, hk, ih]

theorem find?_eq_some_pred {α : Type} {p : α → Bool} {a : α} :
    ∀ {l : List α}, l.find? p = some a → p a = true ∧ a ∈ l := by
  intro l
  induction l with
  | nil => intro h; simp [List.find?] at h
  | cons x xs ih =>
    intro h
    by_cases hx : p x = true
    · simp [List.find?_cons, hx] at h
      subst h
      exact ⟨hx, List.mem_cons_self _ _⟩
    · simp [List.find?_cons, hx] at h
      obtain ⟨hp, hm⟩ := ih h
      exact ⟨hp, List.mem_cons_of_mem _ hm⟩

theorem find?_eq_none_of {α : Type} {p : α → Bool} :
    ∀ {l : List α}, (∀ x ∈ l, p x = false) → l.find? p = none := by
  intro l
  induction l with
  | nil => intro _; rfl
  | cons x xs ih =>
    intro h
    have hx := h x (List.mem_cons_self _ _)
    rw [List.find?_cons, hx]
    exact ih fun y hy => h y (List.mem_cons_of_mem _ hy)

theorem le_maxPersistedAuditId {x : Nat} {l : List Nat} (h : x ∈ l) :
    x ≤ maxPersistedAuditId l := by
  induction l with
  | nil => cases h
  | cons y ys ih =>
    rcases List.mem_cons.mp h with rfl | h'
    · exact Nat.le_max_left _ _
    · exact Nat.le_trans (ih h') (Nat.le_max_right _ _)

/-- C1: if the in-memory audit map holds a live audit of the requested type
whose range contains the requested range, `launchAudit` returns that audit's
existing id; if live audits of the type exist but none contains the range, it
fails with `audit_storage_exceeded_request_limit`; and only when no live
audit of the type exists does it persist a fresh id (one past the largest
persisted id, hence not previously persisted) and start a new audit. -/
theorem launchAudit_spec (auditsOfType : List DDAuditEntry)
    (persistedIdsOfType : List Nat) (auditRange : KeyRange) :
    ((∃ a ∈ auditsOfType, a.range.containsRange auditRange = true) →
      ∃ a ∈ auditsOfType, a.range.containsRange auditRange = true ∧
        launchAudit auditsOfType persistedIdsOfType auditRange = .existing a.id) ∧
    (auditsOfType ≠ [] →
      (∀ a ∈ auditsOfType, a.range.containsRange auditRange = false) →
      launchAudit auditsOfType persistedIdsOfType auditRange = .exceededRequestLimit) ∧
    (auditsOfType = [] →
      launchAudit auditsOfType persistedIdsOfType auditRange =
        .launchedNew (persistNewAuditStateId persistedIdsOfType) ∧
      persistNewAuditStateId persistedIdsOfType ∉ persistedIdsOfType) := by
  refine ⟨?_, ?_, ?_⟩
  · rintro ⟨a, ha, hpa⟩
    have hsome : (auditsOfType.find? (fun x => x.range.containsRange auditRange)).isSome := by
      rw [List.find?_isSome]
      exact ⟨a, ha, hpa⟩
    obtain ⟨a', hfind⟩ := Option.isSome_iff_exists.mp hsome
    obtain ⟨hpa', hmem'⟩ := find?_eq_some_pred hfind
    refine ⟨a', hmem', hpa', ?_⟩
    cases auditsOfType with
    | nil => cases ha
    | cons x xs => simp [launchAudit, hfind]
  · intro hne hnone
    have hfind : auditsOfType.find? (fun x => x.range.containsRange auditRange) = none :=
      find?_eq_none_of fun x hx => hnone x hx
    cases auditsOfType with
    | nil => exact absurd rfl hne
    | cons x xs => simp [launchAudit, hfind]
  · intro hnil
    subst hnil
    refine ⟨rfl, ?_⟩
    intro hmem
    have := le_maxPersistedAuditId hmem
    simp [persistNewAuditStateId] at this

/-- A closed instantiation of `launchAudit_spec`: with one live replica audit
over `[0, 100)`, a request for `[10, 20)` returns the existing id `4`; with a
live audit over `[0, 5)` only, the same request is rejected; with no live
audit, a fresh id one past the persisted maximum is launched. -/
theorem launchAudit_spec_witness :
    (∃ a ∈ [DDAuditEntry.mk 4 ⟨0, 100⟩],
      a.range.containsRange ⟨10, 20⟩ = true ∧
        launchAudit [DDAuditEntry.mk 4 ⟨0, 100⟩] [4] ⟨10, 20⟩ = .existing a.id) ∧
    launchAudit [DDAuditEntry.mk 4 ⟨0, 5⟩] [4] ⟨10, 20⟩ = .exceededRequestLimit ∧
    (launchAudit [] [4, 2] ⟨10, 20⟩ = .launchedNew (persistNewAuditStateId [4, 2]) ∧
      persistNewAuditStateId [4, 2] ∉ [4, 2]) :=
  ⟨(launchAudit_spec [DDAuditEntry.mk 4 ⟨0, 100⟩] [4] ⟨10, 20⟩).1
      ⟨DDAuditEntry.mk 4 ⟨0, 100⟩, by decide, by decide⟩,
    (launchAudit_spec [DDAuditEntry.mk 4 ⟨0, 5⟩] [4] ⟨10, 20⟩).2.1 (by decide)
      (by decide),
    (launchAudit_spec [] [4, 2] ⟨10, 20⟩).2.2 rfl⟩

/-- C2: when the child tasks of an audit settle, a latched `foundError`
persists phase `Error`; otherwise a failed child raises the internal retry,
which restarts dispatch with `retryCount + 1` while below
`AUDIT_RETRY_COUNT_MAX`, and once `retryCount` has reached the maximum the
audit is persisted with phase `Failed` and removed instead of retried. -/
theorem auditStorageCore_settle_spec (auditType : AuditType)
    (foundError anyChildFailed progressComplete : Bool)
    (retryCount maxRetryCount : Nat) :
    (foundError = true →
      auditStorageCoreStep auditType foundError anyChildFailed progressComplete
        retryCount maxRetryCount = .persistedRemoved .error) ∧
    (foundError = false → anyChildFailed = true → retryCount < maxRetryCount →
      auditStorageCoreStep auditType foundError anyChildFailed progressComplete
        retryCount maxRetryCount = .retried (retryCount + 1)) ∧
    (foundError = false → anyChildFailed = true → maxRetryCount ≤ retryCount →
      auditStorageCoreStep auditType foundError anyChildFailed progressComplete
        retryCount maxRetryCount = .persistedRemoved .failed) := by
  refine ⟨?_, ?_, ?_⟩
  · intro h
    simp [auditStorageCoreStep, auditStorageCoreSettle, h]
  · intro h1 h2 h3
    simp [auditStorageCoreStep, auditStorageCoreSettle, auditStorageCoreCatch, h1, h2, h3]
  · intro h1 h2 h3
    have hnl : ¬(retryCount < maxRetryCount) := Nat.not_lt.mpr h3
    simp [auditStorageCoreStep, auditStorageCoreSettle, auditStorageCoreCatch, h1, h2, hnl]

/-- A closed instantiation of `auditStorageCore_settle_spec`: with
`AUDIT_RETRY_COUNT_MAX = 30`, a found error persists `Error`; a failed child
at `retryCount = 3` retries with count 4; a failed child at
`retryCount = 30` persists `Failed`. -/
theorem auditStorageCore_settle_spec_witness :
    auditStorageCoreStep .validateReplica true false true 3 30 =
      .persistedRemoved .error ∧
    auditStorageCoreStep .validateReplica false true true 3 30 = .retried 4 ∧
    auditStorageCoreStep .validateReplica false true true 30 30 =
      .persistedRemoved .failed :=
  ⟨(auditStorageCore_settle_spec .validateReplica true false true 3 30).1 rfl,
    (auditStorageCore_settle_spec .validateReplica false true true 3 30).2.1 rfl rfl
      (by decide),
    (auditStorageCore_settle_spec .validateReplica false true true 30 30).2.2 rfl rfl
      (by decide)⟩

theorem budget_reachable_aux {maxBudget : Nat} {s : AuditBudget}
    (h : BudgetReachable maxBudget s) :
    s.remainingBudget + (s.inFlightTasks : Int) = (maxBudget : Int) ∧
      0 ≤ s.remainingBudget := by
  induction h with
  | init => simp [budgetInit]
  | @step s0 s' e _ hstep ih =>
    cases e with
    | issueTask =>
      simp only [budgetStep] at hstep
      split at hstep
      · cases hstep
        simp only []
        push_cast
        constructor <;> omega
      · cases hstep
    | taskCompleted =>
      simp only [budgetStep] at hstep
      split at hstep
      · cases hstep
        simp only []
        push_cast [Nat.cast_sub (by omega : 1 ≤ s0.inFlightTasks)]
        constructor <;> omega
      · cases hstep
    | taskErrored =>
      simp only [budgetStep] at hstep
      split at hstep
      · cases hstep
        simp only []
        push_cast [Nat.cast_sub (by omega : 1 ≤ s0.inFlightTasks)]
        constructor <;> omega
      · cases hstep

/-- C3: every budget state a live audit can reach — starting from
`CONCURRENT_AUDIT_TASK_COUNT_MAX`, where schedulers block on
`budget.onChange()` while the budget is zero and decrement by one per issued
task, and `doAuditOnStorageServer` increments by one on completion and on
error — keeps `0 ≤ remainingBudgetForAuditTasks ≤
CONCURRENT_AUDIT_TASK_COUNT_MAX`. -/
theorem remainingBudgetForAuditTasks_bounds (maxBudget : Nat) (s : AuditBudget)
    (h : BudgetReachable maxBudget s) :
    0 ≤ s.remainingBudget ∧ s.remainingBudget ≤ (maxBudget : Int) := by
  obtain ⟨hsum, hnonneg⟩ := budget_reachable_aux h
  refine ⟨hnonneg, ?_⟩
  have : (0 : Int) ≤ (s.inFlightTasks : Int) := Int.natCast_nonneg _
  omega

/-- A closed instantiation of `remainingBudgetForAuditTasks_bounds` at the
initial state of an audit with budget cap 5. -/
theorem remainingBudgetForAuditTasks_bounds_witness :
    0 ≤ (budgetInit 5).remainingBudget ∧
      (budgetInit 5).remainingBudget ≤ ((5 : Nat) : Int) :=
  remainingBudgetForAuditTasks_bounds 5 (budgetInit 5) BudgetReachable.init

/-- C9: with `necessaryOnly`, `getNextServerId` returns a server only when
the queue's top is necessary — so a returned server that is not marked
`wrongConfigured` is strictly older than `DD_STORAGE_WIGGLE_MIN_SS_AGE_SEC` —
and an unnecessary top makes the call return empty, leaving the queue
unchanged. -/
theorem getNextServerId_necessaryOnly_spec :
    (∀ (nowTime minSSAgeSec : Int) (wigglePQ pq' : List (StorageMetadataType × Nat))
        (id : Nat),
      StorageWiggler.getNextServerId true nowTime minSSAgeSec wigglePQ = (some id, pq') →
      ∃ metadata rest, wigglePQ = (metadata, id) :: rest ∧ pq' = rest ∧
        (metadata.wrongConfigured = true ∨
          nowTime - metadata.createdTime > minSSAgeSec)) ∧
    (∀ (nowTime minSSAgeSec : Int) (metadata : StorageMetadataType) (id : Nat)
        (rest : List (StorageMetadataType × Nat)),
      StorageWiggler.necessary metadata nowTime minSSAgeSec = false →
      StorageWiggler.getNextServerId true nowTime minSSAgeSec ((metadata, id) :: rest) =
        (none, (metadata, id) :: rest)) := by
  constructor
  · intro nowTime minSSAgeSec wigglePQ pq' id h
    match wigglePQ with
    | [] => simp [StorageWiggler.getNextServerId] at h
    | (metadata, i) :: rest =>
      by_cases hnec : StorageWiggler.necessary metadata nowTime minSSAgeSec
      · simp [StorageWiggler.getNextServerId, hnec] at h
        obtain ⟨hid, hpq⟩ := h
        subst hid hpq
        refine ⟨metadata, rest, rfl, rfl, ?_⟩
        have := hnec
        simp [StorageWiggler.necessary] at this
        rcases this with h1 | h2
        · exact Or.inl h1
        · exact Or.inr h2
      · have hf : StorageWiggler.necessary metadata nowTime minSSAgeSec = false :=
          Bool.eq_false_iff.mpr hnec
        simp [StorageWiggler.getNextServerId, hf] at h
  · intro nowTime minSSAgeSec metadata id rest h
    simp [StorageWiggler.getNextServerId, h]

/-- A closed instantiation of `getNextServerId_necessaryOnly_spec`: a
wrongly-configured young server at the top is returned, and a correctly
configured server of age exactly the minimum is not popped. -/
theorem getNextServerId_necessaryOnly_spec_witness :
    (∃ metadata rest,
      ([(StorageMetadataType.mk 95 true, 7)] :
          List (StorageMetadataType × Nat)) = (metadata, 7) :: rest ∧
        ([] : List (StorageMetadataType × Nat)) = rest ∧
        (metadata.wrongConfigured = true ∨ (100 : Int) - metadata.createdTime > 60)) ∧
    StorageWiggler.getNextServerId true 100 60 [(StorageMetadataType.mk 40 false, 9)] =
      (none, [(StorageMetadataType.mk 40 false, 9)]) :=
  ⟨getNextServerId_necessaryOnly_spec.1 100 60 [(StorageMetadataType.mk 95 true, 7)] [] 7
      (by decide),
    getNextServerId_necessaryOnly_spec.2 100 60 (StorageMetadataType.mk 40 false) 9 []
      (by decide)⟩

theorem markTenantTombstones_projections (s : TenantMetadataState)
    (tenantId transactionReadVersion tombstoneCleanupInterval versionsPerSecond : Nat) :
    (markTenantTombstones s tenantId transactionReadVersion tombstoneCleanupInterval
        versionsPerSecond).tenantMap = s.tenantMap ∧
    (markTenantTombstones s tenantId transactionReadVersion tombstoneCleanupInterval
        versionsPerSecond).tenantNameIndex = s.tenantNameIndex ∧
    (markTenantTombstones s tenantId transactionReadVersion tombstoneCleanupInterval
        versionsPerSecond).tenantCount = s.tenantCount ∧
    (markTenantTombstones s tenantId transactionReadVersion tombstoneCleanupInterval
        versionsPerSecond).tenantGroupMap = s.tenantGroupMap ∧
    (markTenantTombstones s tenantId transactionReadVersion tombstoneCleanupInterval
        versionsPerSecond).tenantGroupTenantIndex = s.tenantGroupTenantIndex := by
  exact ⟨rfl, rfl, rfl, rfl, rfl⟩

/-- C10: deleting a tenant id that is absent from the tenant map succeeds
without an error and leaves the tenant map, name index, tenant count and both
tenant-group structures unchanged; on any cluster that is not a metacluster
data cluster (in particular standalone) the state is not modified at all. -/
theorem deleteTenantTransaction_absent_spec (s : TenantMetadataState)
    (tenantId : Nat) (clusterType : ClusterType)
    (transactionReadVersion tombstoneCleanupInterval versionsPerSecond : Nat)
    (habsent : alookup s.tenantMap tenantId = none)
    (hmode : checkTenantMode s clusterType = .ok ()) :
    ∃ s', deleteTenantTransaction s tenantId clusterType transactionReadVersion
        tombstoneCleanupInterval versionsPerSecond = .ok s' ∧
      s'.tenantMap = s.tenantMap ∧ s'.tenantNameIndex = s.tenantNameIndex ∧
      s'.tenantCount = s.tenantCount ∧ s'.tenantGroupMap = s.tenantGroupMap ∧
      s'.tenantGroupTenantIndex = s.tenantGroupTenantIndex ∧
      (clusterType ≠ .metaclusterData → s' = s) := by
  have hpart : deleteTenantEntryPart s tenantId = .ok s := by
    unfold deleteTenantEntryPart
    rw [habsent]
  by_cases hct : clusterType = .metaclusterData
  · subst hct
    have hrun : deleteTenantTransaction s tenantId .metaclusterData
        transactionReadVersion tombstoneCleanupInterval versionsPerSecond =
        .ok (markTenantTombstones s tenantId transactionReadVersion
          tombstoneCleanupInterval versionsPerSecond) := by
      unfold deleteTenantTransaction
      rw [hmode, hpart]
      rfl
    refine ⟨_, hrun, ?_⟩
    obtain ⟨h1, h2, h3, h4, h5⟩ := markTenantTombstones_projections s tenantId
      transactionReadVersion tombstoneCleanupInterval versionsPerSecond
    exact ⟨h1, h2, h3, h4, h5, fun h => absurd rfl h⟩
  · have hrun : deleteTenantTransaction s tenantId clusterType
        transactionReadVersion tombstoneCleanupInterval versionsPerSecond = .ok s := by
      unfold deleteTenantTransaction
      rw [hmode, hpart]
      simp [hct]
    exact ⟨s, hrun, rfl, rfl, rfl, rfl, rfl, fun _ => rfl⟩

/-- A closed instantiation of `deleteTenantTransaction_absent_spec`: deleting
the absent id 9 on a standalone cluster with tenants enabled. -/
theorem deleteTenantTransaction_absent_spec_witness :
    ∃ s', deleteTenantTransaction
        { tenantMap := [], tenantNameIndex := [], tenantCount := 0,
          tenantGroupMap := [], tenantGroupTenantIndex := [], tenantTombstones := [],
          tombstoneCleanupData := none, tenantIdPrefixValue := 0,
          nonEmptyTenantPrefixes := [], tenantMode := .required,
          actualClusterType := .standalone } 9 .standalone 0 0 0 = .ok s' ∧
      s'.tenantMap = [] ∧ s'.tenantNameIndex = [] ∧ s'.tenantCount = 0 ∧
      s'.tenantGroupMap = [] ∧ s'.tenantGroupTenantIndex = [] ∧
      (ClusterType.standalone ≠ ClusterType.metaclusterData →
        s' = { tenantMap := [], tenantNameIndex := [], tenantCount := 0,
               tenantGroupMap := [], tenantGroupTenantIndex := [], tenantTombstones := [],
               tombstoneCleanupData := none, tenantIdPrefixValue := 0,
               nonEmptyTenantPrefixes := [], tenantMode := .required,
               actualClusterType := .standalone }) :=
  deleteTenantTransaction_absent_spec _ 9 .standalone 0 0 0 (by decide) (by decide)

/-- C4 counterexample: invoked with an already-indexed name,
`createTenantTransaction` does not fail with `tenant_already_exists` — it
completes, returning the existing entry with the created flag false and the
state untouched. -/
theorem createTenantTransaction_existing_counterexample :
    createTenantTransaction c4State c4NewEntry .standalone 100 =
      .ok ⟨c4State, some c4ExistingEntry, false⟩ ∧
    createTenantTransaction c4State c4NewEntry .standalone 100 ≠
      .error .tenantAlreadyExists := by
  constructor
  · rfl
  · decide

/-- C4 (amended): a creation request for an already-indexed name is rejected
with `tenant_already_exists` by the `createTenant` driver on every cluster
type that checks existence (all but a metacluster data cluster), while
`createTenantTransaction` itself completes without an error, returning the
existing entry with the created flag false and leaving the state unchanged. -/
theorem createTenant_existing_spec :
    (∀ (s : TenantMetadataState) (name : TenantName) (entry : TenantMapEntry)
        (clusterType : ClusterType) (maxTenantsPerCluster : Int),
      clusterType ≠ .metaclusterData →
      (alookup s.tenantNameIndex name).isSome = true →
      createTenant s name entry clusterType maxTenantsPerCluster =
        .error .tenantAlreadyExists) ∧
    (∀ (s : TenantMetadataState) (entry : TenantMapEntry) (clusterType : ClusterType)
        (maxTenantsPerCluster : Int) (existingEntry : TenantMapEntry),
      startsWithFF entry.tenantName = false →
      (entry.tenantGroup.map startsWithFF).getD false = false →
      checkTenantMode s clusterType = .ok () →
      tryGetTenantByName s entry.tenantName = some existingEntry →
      createTenantTransaction s entry clusterType maxTenantsPerCluster =
        .ok ⟨s, some existingEntry, false⟩) := by
  constructor
  · intro s name entry clusterType maxTenantsPerCluster hct hidx
    simp [createTenant, hct, hidx]
  · intro s entry clusterType maxTenantsPerCluster existingEntry hname hgroup hmode hbyname
    unfold createTenantTransaction
    rw [hname, hgroup, hmode, hbyname]
    rfl

/-- A closed instantiation of `createTenant_existing_spec` at the C4
counterexample state. -/
theorem createTenant_existing_spec_witness :
    createTenant c4State [97] c4NewEntry .standalone 100 =
      .error .tenantAlreadyExists ∧
    createTenantTransaction c4State c4NewEntry .standalone 100 =
      .ok ⟨c4State, some c4ExistingEntry, false⟩ :=
  ⟨createTenant_existing_spec.1 c4State [97] c4NewEntry .standalone 100 (by decide)
      (by decide),
    createTenant_existing_spec.2 c4State c4NewEntry .standalone 100 c4ExistingEntry
      (by decide) (by decide) (by decide) (by decide)⟩

/-- C7 counterexample: when the tombstone set contains the requested id, the
creation does not abort with an error named `tenant_creation_blocked` (no
such error exists in the source) — `createTenantTransaction` returns
normally with an empty entry and the created flag false. -/
theorem createTenantTransaction_tombstone_counterexample :
    createTenantTransaction c7State c7Entry .metaclusterData 100 =
      .ok ⟨c7State, none, false⟩ := by
  rfl

/-- C7 (amended): on a metacluster data cluster, a requested id present in
the tombstone set makes the creation return an empty result (no entry,
created flag false, no writes) rather than raise an error, and a
tombstone-cleanup watermark at or above the requested id fails the creation
with `tenant_creation_permanently_failed`. -/
theorem createTenantTransaction_tombstone_spec :
    (∀ (s : TenantMetadataState) (entry : TenantMapEntry) (maxTenantsPerCluster : Int),
      startsWithFF entry.tenantName = false →
      (entry.tenantGroup.map startsWithFF).getD false = false →
      checkTenantMode s .metaclusterData = .ok () →
      tryGetTenantByName s entry.tenantName = none →
      (∀ cleanupData, s.tombstoneCleanupData = some cleanupData →
        cleanupData.tombstonesErasedThrough < (entry.id : Int)) →
      s.tenantTombstones.contains entry.id = true →
      createTenantTransaction s entry .metaclusterData maxTenantsPerCluster =
        .ok ⟨s, none, false⟩) ∧
    (∀ (s : TenantMetadataState) (entry : TenantMapEntry) (maxTenantsPerCluster : Int)
        (cleanupData : TenantTombstoneCleanupData),
      startsWithFF entry.tenantName = false →
      (entry.tenantGroup.map startsWithFF).getD false = false →
      checkTenantMode s .metaclusterData = .ok () →
      tryGetTenantByName s entry.tenantName = none →
      s.tombstoneCleanupData = some cleanupData →
      cleanupData.tombstonesErasedThrough ≥ (entry.id : Int) →
      createTenantTransaction s entry .metaclusterData maxTenantsPerCluster =
        .error .tenantCreationPermanentlyFailed) := by
  constructor
  · intro s entry maxTenantsPerCluster hname hgroup hmode hbyname hwatermark htomb
    unfold createTenantTransaction
    rw [hname, hgroup, hmode, hbyname]
    have hcheck : checkTombstone s entry.id = .ok true := by
      unfold checkTombstone
      cases hcd : s.tombstoneCleanupData with
      | none => rw [htomb]
      | some cleanupData =>
        have hlt := hwatermark cleanupData hcd
        show (if cleanupData.tombstonesErasedThrough ≥ (entry.id : Int) then
            (Except.error TenantError.tenantCreationPermanentlyFailed : Except TenantError Bool)
          else .ok (s.tenantTombstones.contains entry.id)) = .ok true
        rw [if_neg (not_le.mpr hlt), htomb]
    simp [hcheck]
  · intro s entry maxTenantsPerCluster cleanupData hname hgroup hmode hbyname hcd hwm
    unfold createTenantTransaction
    rw [hname, hgroup, hmode, hbyname]
    have hcheck : checkTombstone s entry.id = .error .tenantCreationPermanentlyFailed := by
      unfold checkTombstone
      rw [hcd]
      show (if cleanupData.tombstonesErasedThrough ≥ (entry.id : Int) then
          (Except.error TenantError.tenantCreationPermanentlyFailed : Except TenantError Bool)
        else .ok (s.tenantTombstones.contains entry.id)) =
        .error .tenantCreationPermanentlyFailed
      rw [if_pos hwm]
    simp [hcheck]

/-- A closed instantiation of `createTenantTransaction_tombstone_spec`: at
the C7 state a tombstoned id yields the empty result, and a request for id 2
(at or below the watermark 3) fails permanently. -/
theorem createTenantTransaction_tombstone_spec_witness :
    createTenantTransaction c7State c7Entry .metaclusterData 100 =
      .ok ⟨c7State, none, false⟩ ∧
    createTenantTransaction c7State
        { id := 2, tenantName := [99], tenantGroup := none,
          configurationSequenceNum := 0 } .metaclusterData 100 =
      .error .tenantCreationPermanentlyFailed :=
  ⟨createTenantTransaction_tombstone_spec.1 c7State c7Entry 100 (by decide) (by decide)
      (by decide) (by decide)
      (by intro cd hcd; injection hcd with h; subst h; decide) (by decide),
    createTenantTransaction_tombstone_spec.2 c7State
      { id := 2, tenantName := [99], tenantGroup := none, configurationSequenceNum := 0 }
      100 _ (by decide) (by decide) (by decide) (by decide) rfl (by decide)⟩

theorem groupInvariantHolds_iff (s : TenantMetadataState) :
    groupInvariantHolds s = true ↔ GroupLists s.tenantGroupMap s.tenantGroupTenantIndex := by
  unfold groupInvariantHolds GroupLists
  rw [Bool.and_eq_true, List.all_eq_true, List.all_eq_true]
  constructor
  · rintro ⟨h1, h2⟩ g
    constructor
    · intro hg
      obtain ⟨t, ht, hp⟩ := List.any_eq_true.mp (h1 g hg)
      exact ⟨t, ht, of_decide_eq_true hp⟩
    · rintro ⟨t, ht, rfl⟩
      obtain ⟨g', hg', he⟩ := List.any_eq_true.mp (h2 t ht)
      have hgt : g' = t.1 := of_decide_eq_true he
      rwa [hgt] at hg'
  · intro h
    constructor
    · intro g hg
      rw [List.any_eq_true]
      obtain ⟨t, ht, he⟩ := (h g).mp hg
      exact ⟨t, ht, decide_eq_true he⟩
    · intro t ht
      rw [List.any_eq_true]
      exact ⟨t.1, (h t.1).mpr ⟨t, ht, rfl⟩, decide_eq_true rfl⟩

theorem GroupLists.insertTenant {groupMap : List TenantGroupName}
    {groupIdx : List (TenantGroupName × TenantName × Nat)}
    (h : GroupLists groupMap groupIdx) (g : TenantGroupName) (name : TenantName)
    (tenantId : Nat) :
    GroupLists (if groupMap.contains g then groupMap else groupMap ++ [g])
      (groupIdx ++ [(g, name, tenantId)]) := by
  intro g'
  by_cases hg : g' = g
  · subst hg
    constructor
    · intro _
      exact ⟨(g', name, tenantId), List.mem_append_right _ (by simp), rfl⟩
    · intro _
      by_cases hc : groupMap.contains g'
      · rw [if_pos hc]
        exact List.elem_iff.mp hc
      · rw [if_neg hc]
        exact List.mem_append_right _ (by simp)
  · have hmem : (g' ∈ if groupMap.contains g then groupMap else groupMap ++ [g]) ↔
        g' ∈ groupMap := by
      split
      · exact Iff.rfl
      · simp [List.mem_append, hg]
    rw [hmem, h g']
    constructor
    · rintro ⟨t, ht, rfl⟩
      exact ⟨t, List.mem_append_left _ ht, rfl⟩
    · rintro ⟨t, ht, h1⟩
      rcases List.mem_append.mp ht with h' | h'
      · exact ⟨t, h', h1⟩
      · simp at h'
        subst h'
        exact absurd h1.symm (by simpa using hg)

theorem takeTwoWindowElim {α : Type} (l : List α) (f : α → Nat) (tid : Nat)
    (hcond : ((l.take 2).isEmpty ||
      ((l.take 2).length = 1 && (l.take 2).head?.map f = some tid)) = true) :
    l = [] ∨ ∃ x, l = [x] ∧ f x = tid := by
  cases l with
  | nil => exact Or.inl rfl
  | cons a rest =>
    cases rest with
    | nil =>
      right
      simp [List.take] at hcond
      exact ⟨a, rfl, hcond⟩
    | cons b rest2 =>
      exfalso
      simp [List.take] at hcond

theorem lastTenantInGroup_true_filter_nil
    {groupIdx : List (TenantGroupName × TenantName × Nat)} {g : TenantGroupName}
    {name : TenantName} {tenantId : Nat}
    (hcond : lastTenantInGroup groupIdx g name tenantId = true)
    (huniq : ∀ t ∈ groupIdx, t.2.2 = tenantId → t = (g, name, tenantId)) :
    (groupIdx.filter (fun t => t ≠ (g, name, tenantId))).filter
      (fun t => t.1 = g) = [] := by
  unfold lastTenantInGroup at hcond
  rcases takeTwoWindowElim
      ((groupIdx.filter (fun t => t ≠ (g, name, tenantId))).filter
        (fun t => t.1 = g)) (fun t => t.2.2) tenantId hcond with hnil | ⟨x, hx, hfx⟩
  · exact hnil
  · exfalso
    have hxmem : x ∈ (groupIdx.filter (fun t => t ≠ (g, name, tenantId))).filter
        (fun t => t.1 = g) := by
      rw [hx]
      exact List.mem_cons_self _ _
    rw [List.mem_filter, List.mem_filter] at hxmem
    obtain ⟨⟨hmem0, hne0⟩, _⟩ := hxmem
    exact (of_decide_eq_true hne0) (huniq x hmem0 hfx)

theorem lastTenantInGroup_false_filter_ne_nil
    {groupIdx : List (TenantGroupName × TenantName × Nat)} {g : TenantGroupName}
    {name : TenantName} {tenantId : Nat}
    (hcond : lastTenantInGroup groupIdx g name tenantId = false) :
    (groupIdx.filter (fun t => t ≠ (g, name, tenantId))).filter
      (fun t => t.1 = g) ≠ [] := by
  unfold lastTenantInGroup at hcond
  rw [Bool.or_eq_false_iff] at hcond
  obtain ⟨hempty, _⟩ := hcond
  intro hnil
  rw [hnil] at hempty
  simp at hempty

theorem GroupLists.removeTenant {groupMap : List TenantGroupName}
    {groupIdx : List (TenantGroupName × TenantName × Nat)}
    (h : GroupLists groupMap groupIdx) {g : TenantGroupName} {name : TenantName}
    {tenantId : Nat}
    (huniq : ∀ t ∈ groupIdx, t.2.2 = tenantId → t = (g, name, tenantId)) :
    GroupLists (removeTenantFromGroupLists groupMap groupIdx g name tenantId).1
      (removeTenantFromGroupLists groupMap groupIdx g name tenantId).2 := by
  have hremmem : ∀ u, u ∈ groupIdx.filter (fun v => v ≠ (g, name, tenantId)) ↔
      u ∈ groupIdx ∧ u ≠ (g, name, tenantId) := by
    intro u
    rw [List.mem_filter]
    simp
  have hother : ∀ g', g' ≠ g →
      ((∃ t ∈ groupIdx.filter (fun v => v ≠ (g, name, tenantId)), t.1 = g') ↔
        ∃ t ∈ groupIdx, t.1 = g') := by
    intro g' hg
    constructor
    · rintro ⟨t, ht, h1⟩
      rw [hremmem] at ht
      exact ⟨t, ht.1, h1⟩
    · rintro ⟨t, ht, h1⟩
      refine ⟨t, ?_, h1⟩
      rw [hremmem]
      refine ⟨ht, ?_⟩
      intro heq
      rw [heq] at h1
      exact hg h1.symm
  unfold removeTenantFromGroupLists
  by_cases hcond : lastTenantInGroup groupIdx g name tenantId = true
  · rw [if_pos hcond]
    intro g'
    by_cases hg : g' = g
    · have hnil := lastTenantInGroup_true_filter_nil hcond huniq
      constructor
      · intro hmem
        rw [List.mem_filter] at hmem
        exact absurd hg (of_decide_eq_true hmem.2)
      · rintro ⟨t, ht, h1⟩
        exfalso
        have hmemf : t ∈ (groupIdx.filter (fun v => v ≠ (g, name, tenantId))).filter
            (fun v => v.1 = g) := by
          rw [List.mem_filter]
          exact ⟨ht, decide_eq_true (h1.trans hg)⟩
        rw [hnil] at hmemf
        cases hmemf
    · constructor
      · intro hmem
        rw [List.mem_filter] at hmem
        exact (hother g' hg).mpr ((h g').mp hmem.1)
      · intro hex
        rw [List.mem_filter]
        exact ⟨(h g').mpr ((hother g' hg).mp hex), decide_eq_true hg⟩
  · rw [if_neg hcond]
    rw [Bool.not_eq_true] at hcond
    intro g'
    by_cases hg : g' = g
    · subst hg
      constructor
      · intro _
        have hne := lastTenantInGroup_false_filter_ne_nil hcond
        obtain ⟨t, ht⟩ := List.exists_mem_of_ne_nil _ hne
        rw [List.mem_filter] at ht
        exact ⟨t, ht.1, of_decide_eq_true ht.2⟩
      · rintro ⟨t, ht, h1⟩
        rw [hremmem] at ht
        have := (h t.1).mpr ⟨t, ht.1, rfl⟩
        rwa [h1] at this
    · rw [hother g' hg]
      exact h g'

theorem consistent_unique_tuple {s : TenantMetadataState}
    (hcons : tenantIndexConsistent s = true) {tenantId : Nat} {entry : TenantMapEntry}
    {g : TenantGroupName} (hmap : alookup s.tenantMap tenantId = some entry)
    (hg : entry.tenantGroup = some g) :
    ∀ t ∈ s.tenantGroupTenantIndex, t.2.2 = tenantId →
      t = (g, entry.tenantName, tenantId) := by
  intro t ht htid
  have hall := List.all_eq_true.mp hcons t ht
  rw [htid, hmap] at hall
  rw [Bool.and_eq_true] at hall
  obtain ⟨h1, h2⟩ := hall
  have h1' : entry.tenantName = t.2.1 := of_decide_eq_true h1
  have h2' : entry.tenantGroup = some t.1 := of_decide_eq_true h2
  rw [hg] at h2'
  injection h2' with h2''
  obtain ⟨tg, tn, ti⟩ := t
  simp at htid h1' h2'' ⊢
  exact ⟨h2''.symm, h1'.symm, htid⟩

theorem createTenantTransaction_ok_state {s : TenantMetadataState}
    {tenantEntry : TenantMapEntry} {clusterType : ClusterType}
    {maxTenantsPerCluster : Int} {r : CreateTenantResult}
    (hok : createTenantTransaction s tenantEntry clusterType maxTenantsPerCluster =
      .ok r) :
    r.state = s ∨ r.state = createTenantWrites s tenantEntry := by
  unfold createTenantTransaction at hok
  repeat' split at hok
  all_goals cases hok
  all_goals first
    | exact Or.inl rfl
    | exact Or.inr rfl

theorem addTenantToGroupIndexThenMap_groups (s : TenantMetadataState)
    (g : TenantGroupName) (name : TenantName) (tenantId : Nat) :
    (addTenantToGroupIndexThenMap s g name tenantId).tenantGroupMap =
      (if s.tenantGroupMap.contains g then s.tenantGroupMap
       else s.tenantGroupMap ++ [g]) ∧
    (addTenantToGroupIndexThenMap s g name tenantId).tenantGroupTenantIndex =
      s.tenantGroupTenantIndex ++ [(g, name, tenantId)] := by
  unfold addTenantToGroupIndexThenMap
  by_cases hc : s.tenantGroupMap.contains g = true
  · rw [if_pos hc, if_pos hc]
    exact ⟨rfl, rfl⟩
  · rw [if_neg hc, if_neg hc]
    exact ⟨rfl, rfl⟩

theorem createTenantWrites_groups (s : TenantMetadataState)
    (tenantEntry : TenantMapEntry) :
    ((createTenantWrites s tenantEntry).tenantGroupMap = s.tenantGroupMap ∧
      (createTenantWrites s tenantEntry).tenantGroupTenantIndex =
        s.tenantGroupTenantIndex) ∨
    (∃ g, tenantEntry.tenantGroup = some g ∧
      (createTenantWrites s tenantEntry).tenantGroupMap =
        (if s.tenantGroupMap.contains g then s.tenantGroupMap
         else s.tenantGroupMap ++ [g]) ∧
      (createTenantWrites s tenantEntry).tenantGroupTenantIndex =
        s.tenantGroupTenantIndex ++ [(g, tenantEntry.tenantName, tenantEntry.id)]) := by
  cases hg : tenantEntry.tenantGroup with
  | none =>
    refine Or.inl ⟨?_, ?_⟩ <;> (unfold createTenantWrites; rw [hg])
  | some g =>
    refine Or.inr ⟨g, rfl, ?_, ?_⟩
    · have h := (addTenantToGroupIndexThenMap_groups
        { s with tenantMap := aset s.tenantMap tenantEntry.id tenantEntry,
                 tenantNameIndex :=
                   aset s.tenantNameIndex tenantEntry.tenantName tenantEntry.id }
        g tenantEntry.tenantName tenantEntry.id).1
      unfold createTenantWrites
      rw [hg]
      exact h
    · have h := (addTenantToGroupIndexThenMap_groups
        { s with tenantMap := aset s.tenantMap tenantEntry.id tenantEntry,
                 tenantNameIndex :=
                   aset s.tenantNameIndex tenantEntry.tenantName tenantEntry.id }
        g tenantEntry.tenantName tenantEntry.id).2
      unfold createTenantWrites
      rw [hg]
      exact h

theorem groupInvariant_create {s : TenantMetadataState} {tenantEntry : TenantMapEntry}
    {clusterType : ClusterType} {maxTenantsPerCluster : Int} {r : CreateTenantResult}
    (hok : createTenantTransaction s tenantEntry clusterType maxTenantsPerCluster =
      .ok r)
    (hinv : groupInvariantHolds s = true) : groupInvariantHolds r.state = true := by
  rw [groupInvariantHolds_iff] at hinv ⊢
  rcases createTenantTransaction_ok_state hok with h | h
  · rw [h]
    exact hinv
  · rcases createTenantWrites_groups s tenantEntry with ⟨h1, h2⟩ | ⟨g, _, h1, h2⟩
    · rw [h, h1, h2]
      exact hinv
    · rw [h, h1, h2]
      exact hinv.insertTenant g tenantEntry.tenantName tenantEntry.id

theorem deleteTenantEntryPart_ok_groups {s : TenantMetadataState} {tenantId : Nat}
    {s2 : TenantMetadataState} (hok : deleteTenantEntryPart s tenantId = .ok s2) :
    (s2.tenantGroupMap = s.tenantGroupMap ∧
      s2.tenantGroupTenantIndex = s.tenantGroupTenantIndex) ∨
    (∃ tenantEntry g, alookup s.tenantMap tenantId = some tenantEntry ∧
      tenantEntry.tenantGroup = some g ∧
      s2.tenantGroupMap = (removeTenantFromGroupLists s.tenantGroupMap
        s.tenantGroupTenantIndex g tenantEntry.tenantName tenantId).1 ∧
      s2.tenantGroupTenantIndex = (removeTenantFromGroupLists s.tenantGroupMap
        s.tenantGroupTenantIndex g tenantEntry.tenantName tenantId).2) := by
  unfold deleteTenantEntryPart at hok
  cases hmap : alookup s.tenantMap tenantId with
  | none =>
    rw [hmap] at hok
    cases hok
    exact Or.inl ⟨rfl, rfl⟩
  | some tenantEntry =>
    rw [hmap] at hok
    dsimp only at hok
    split at hok
    · cases hok
    · cases hg : tenantEntry.tenantGroup with
      | none =>
        rw [hg] at hok
        cases hok
        exact Or.inl ⟨rfl, rfl⟩
      | some g =>
        rw [hg] at hok
        cases hok
        exact Or.inr ⟨tenantEntry, g, rfl, hg, rfl, rfl⟩

theorem deleteTenantTransaction_ok_groups {s : TenantMetadataState} {tenantId : Nat}
    {clusterType : ClusterType}
    {transactionReadVersion tombstoneCleanupInterval versionsPerSecond : Nat}
    {s' : TenantMetadataState}
    (hok : deleteTenantTransaction s tenantId clusterType transactionReadVersion
      tombstoneCleanupInterval versionsPerSecond = .ok s') :
    ∃ s2, deleteTenantEntryPart s tenantId = .ok s2 ∧
      s'.tenantGroupMap = s2.tenantGroupMap ∧
      s'.tenantGroupTenantIndex = s2.tenantGroupTenantIndex := by
  unfold deleteTenantTransaction at hok
  cases hmode : checkTenantMode s clusterType with
  | error e =>
    rw [hmode] at hok
    cases hok
  | ok u =>
    cases u
    rw [hmode] at hok
    cases hpart : deleteTenantEntryPart s tenantId with
    | error e =>
      rw [hpart] at hok
      cases hok
    | ok s2 =>
      rw [hpart] at hok
      dsimp only at hok
      split at hok
      · cases hok
        obtain ⟨_, _, _, h4, h5⟩ := markTenantTombstones_projections s2 tenantId
          transactionReadVersion tombstoneCleanupInterval versionsPerSecond
        exact ⟨s2, rfl, h4, h5⟩
      · cases hok
        exact ⟨_, rfl, rfl, rfl⟩

theorem groupInvariant_delete {s : TenantMetadataState} {tenantId : Nat}
    {clusterType : ClusterType}
    {transactionReadVersion tombstoneCleanupInterval versionsPerSecond : Nat}
    {s' : TenantMetadataState}
    (hok : deleteTenantTransaction s tenantId clusterType transactionReadVersion
      tombstoneCleanupInterval versionsPerSecond = .ok s')
    (hinv : groupInvariantHolds s = true)
    (hcons : tenantIndexConsistent s = true) : groupInvariantHolds s' = true := by
  obtain ⟨s2, hok2, hm, hi⟩ := deleteTenantTransaction_ok_groups hok
  rw [groupInvariantHolds_iff] at hinv ⊢
  rw [hm, hi]
  rcases deleteTenantEntryPart_ok_groups hok2 with ⟨h1, h2⟩ | ⟨e, g, hmap, hg, h1, h2⟩
  · rw [h1, h2]
    exact hinv
  · rw [h1, h2]
    exact hinv.removeTenant (consistent_unique_tuple hcons hmap hg)

theorem configureGroupWrites_groupInv {s1 : TenantMetadataState}
    {originalEntry updatedTenantEntry : TenantMapEntry}
    (hinv : GroupLists s1.tenantGroupMap s1.tenantGroupTenantIndex)
    (huniq : ∀ g, originalEntry.tenantGroup = some g →
      ∀ t ∈ s1.tenantGroupTenantIndex, t.2.2 = updatedTenantEntry.id →
        t = (g, originalEntry.tenantName, updatedTenantEntry.id)) :
    GroupLists (configureGroupWrites s1 originalEntry updatedTenantEntry).tenantGroupMap
      (configureGroupWrites s1 originalEntry updatedTenantEntry).tenantGroupTenantIndex := by
  have hmid : ∀ smid : TenantMetadataState,
      GroupLists smid.tenantGroupMap smid.tenantGroupTenantIndex →
      ∀ g1, GroupLists
        (addTenantToGroupIndexThenMap smid g1 updatedTenantEntry.tenantName
          updatedTenantEntry.id).tenantGroupMap
        (addTenantToGroupIndexThenMap smid g1 updatedTenantEntry.tenantName
          updatedTenantEntry.id).tenantGroupTenantIndex := by
    intro smid hsmid g1
    have h := addTenantToGroupIndexThenMap_groups smid g1 updatedTenantEntry.tenantName
      updatedTenantEntry.id
    rw [h.1, h.2]
    exact hsmid.insertTenant g1 updatedTenantEntry.tenantName updatedTenantEntry.id
  unfold configureGroupWrites
  cases hgo : originalEntry.tenantGroup with
  | none =>
    cases hgu : updatedTenantEntry.tenantGroup with
    | none => exact hinv
    | some g1 => exact hmid s1 hinv g1
  | some g0 =>
    have hrem : GroupLists
        (removeTenantFromGroup s1 g0 originalEntry.tenantName
          updatedTenantEntry.id).tenantGroupMap
        (removeTenantFromGroup s1 g0 originalEntry.tenantName
          updatedTenantEntry.id).tenantGroupTenantIndex :=
      hinv.removeTenant (huniq g0 hgo)
    cases hgu : updatedTenantEntry.tenantGroup with
    | none => exact hrem
    | some g1 => exact hmid _ hrem g1

theorem groupInvariant_configure {s : TenantMetadataState}
    {originalEntry updatedTenantEntry : TenantMapEntry} {s' : TenantMetadataState}
    (hok : configureTenantTransaction s originalEntry updatedTenantEntry = .ok s')
    (halook : alookup s.tenantMap updatedTenantEntry.id = some originalEntry)
    (hinv : groupInvariantHolds s = true)
    (hcons : tenantIndexConsistent s = true) : groupInvariantHolds s' = true := by
  rw [groupInvariantHolds_iff] at hinv ⊢
  unfold configureTenantTransaction at hok
  split at hok
  · split at hok
    · cases hok
    · cases hok
      refine configureGroupWrites_groupInv hinv ?_
      intro g hg t ht htid
      exact consistent_unique_tuple hcons halook hg t ht htid
  · cases hok
    exact hinv

/-- C5: the tenant-group map contains a group entry iff at least one tenant
references the group in the group-tenant index, and — given a group index
consistent with the tenant map — each of `createTenantTransaction`,
`deleteTenantTransaction` and `configureTenantTransaction` preserves this
invariant across every committed (non-error) outcome: the group entry is
created with the first referencing tenant and erased when the last
referencing tenant is deleted or moved to another group. -/
theorem tenantGroup_invariant_preserved :
    (∀ (s : TenantMetadataState) (tenantEntry : TenantMapEntry)
        (clusterType : ClusterType) (maxTenantsPerCluster : Int)
        (r : CreateTenantResult),
      createTenantTransaction s tenantEntry clusterType maxTenantsPerCluster = .ok r →
      groupInvariantHolds s = true → groupInvariantHolds r.state = true) ∧
    (∀ (s : TenantMetadataState) (tenantId : Nat) (clusterType : ClusterType)
        (transactionReadVersion tombstoneCleanupInterval versionsPerSecond : Nat)
        (s' : TenantMetadataState),
      deleteTenantTransaction s tenantId clusterType transactionReadVersion
        tombstoneCleanupInterval versionsPerSecond = .ok s' →
      groupInvariantHolds s = true → tenantIndexConsistent s = true →
      groupInvariantHolds s' = true) ∧
    (∀ (s : TenantMetadataState) (originalEntry updatedTenantEntry : TenantMapEntry)
        (s' : TenantMetadataState),
      configureTenantTransaction s originalEntry updatedTenantEntry = .ok s' →
      alookup s.tenantMap updatedTenantEntry.id = some originalEntry →
      groupInvariantHolds s = true → tenantIndexConsistent s = true →
      groupInvariantHolds s' = true) :=
  ⟨fun _ _ _ _ _ hok hinv => groupInvariant_create hok hinv,
    fun _ _ _ _ _ _ _ hok hinv hcons => groupInvariant_delete hok hinv hcons,
    fun _ _ _ _ hok halook hinv hcons => groupInvariant_configure hok halook hinv hcons⟩

/-- A closed instantiation of `tenantGroup_invariant_preserved`: creating the
first member of group `"g"`, deleting the last member of group `"g"`, and
moving a tenant from group `"g"` to a fresh group `"h"` all preserve the
invariant. -/
theorem tenantGroup_invariant_preserved_witness :
    groupInvariantHolds c5CreateResultState = true ∧
    groupInvariantHolds c5DeleteResultState = true ∧
    groupInvariantHolds c5ConfigureResultState = true :=
  ⟨tenantGroup_invariant_preserved.1 c4State c5CreateEntry .standalone 100
      ⟨c5CreateResultState, some c5CreateEntry, true⟩ (by decide) (by decide),
    tenantGroup_invariant_preserved.2.1 c6State 5 .standalone 0 0 0
      c5DeleteResultState (by decide) (by decide) (by decide),
    tenantGroup_invariant_preserved.2.2 c6State c6Entry c5ConfigureUpdatedEntry
      c5ConfigureResultState (by decide) (by decide) (by decide) (by decide)⟩

theorem aset_aset_cancel {α β : Type} [DecidableEq α] {l : List (α × β)} {k : α}
    {v : β} (h : alookup l k = some v) (w : β) : aset (aset l k w) k v = l := by
  induction l with
  | nil => simp [alookup] at h
  | cons hd tl ih =>
    obtain ⟨k', v'⟩ := hd
    by_cases hk : k' = k
    · subst hk
      simp [alookup] at h
      simp [aset, h]
    · simp [alookup, hk] at h
      simp [aset, hk, ih h]

theorem entry_rename_back {entry : TenantMapEntry} {a : TenantName}
    (h : entry.tenantName = a) : { entry with tenantName := a } = entry := by
  cases entry
  simp at h
  rw [h]

theorem mem_filter_ne_append_self {α : Type} [DecidableEq α] {l : List α} {x : α}
    (hx : x ∈ l) (t : α) :
    (t ∈ (l.filter (fun y => y ≠ x)) ++ [x]) ↔ t ∈ l := by
  rw [List.mem_append, List.mem_filter]
  constructor
  · rintro (⟨h1, _⟩ | h2)
    · exact h1
    · simp at h2
      subst h2
      exact hx
  · intro ht
    by_cases hteq : t = x
    · right
      simp [hteq]
    · left
      exact ⟨ht, decide_eq_true hteq⟩

theorem renameWrites_fields (s : TenantMetadataState) (oldName newName : TenantName)
    (tenantId : Nat) (entry1 : TenantMapEntry) :
    (renameWrites s oldName newName tenantId entry1).tenantMap =
      aset s.tenantMap tenantId { entry1 with tenantName := newName } ∧
    (renameWrites s oldName newName tenantId entry1).tenantNameIndex =
      aerase (aset s.tenantNameIndex newName tenantId) oldName ∧
    (renameWrites s oldName newName tenantId entry1).tenantGroupMap =
      s.tenantGroupMap ∧
    (renameWrites s oldName newName tenantId entry1).tenantCount = s.tenantCount ∧
    (renameWrites s oldName newName tenantId entry1).tenantMode = s.tenantMode ∧
    (renameWrites s oldName newName tenantId entry1).actualClusterType =
      s.actualClusterType ∧
    (renameWrites s oldName newName tenantId entry1).tenantGroupTenantIndex =
      (match entry1.tenantGroup with
       | some g =>
         (s.tenantGroupTenantIndex.filter (fun t => t ≠ (g, oldName, tenantId))) ++
           [(g, newName, tenantId)]
       | none => s.tenantGroupTenantIndex) := by
  unfold renameWrites
  cases hg : entry1.tenantGroup with
  | none => exact ⟨rfl, rfl, rfl, rfl, rfl, rfl, rfl⟩
  | some g => exact ⟨rfl, rfl, rfl, rfl, rfl, rfl, rfl⟩

theorem renameTenantTransaction_ok_of {s : TenantMetadataState}
    {oldName newName : TenantName} {tenantId : Nat} {entry : TenantMapEntry}
    (tenantIdIn : Option Nat)
    (transactionReadVersion tombstoneCleanupInterval versionsPerSecond : Nat)
    (hti : (match tenantIdIn with
            | some i => some i
            | none => alookup s.tenantNameIndex oldName) = some tenantId)
    (hmode : checkTenantMode s .standalone = .ok ())
    (hmap : alookup s.tenantMap tenantId = some entry)
    (hname : entry.tenantName = oldName)
    (hnew : alookup s.tenantNameIndex newName = none) :
    renameTenantTransaction s oldName newName tenantIdIn .standalone none
      transactionReadVersion tombstoneCleanupInterval versionsPerSecond =
      .ok (renameWrites s oldName newName tenantId entry) := by
  unfold renameTenantTransaction
  rw [hmode]
  cases tenantIdIn with
  | some i =>
    have hi : i = tenantId := by
      simpa using hti
    subst hi
    dsimp only
    rw [hmap, hnew]
    simp [hname]
  | none =>
    have hti' : alookup s.tenantNameIndex oldName = some tenantId := by
      simpa using hti
    dsimp only
    rw [hti']
    dsimp only
    rw [hmap, hnew]
    simp [hname]

theorem roundtrip_group_index {α : Type} [DecidableEq α] {l : List α} {x y : α}
    (hx : x ∈ l) (hy : y ∉ l) (t : α) :
    (t ∈ ((l.filter (fun v => v ≠ x) ++ [y]).filter (fun v => v ≠ y)) ++ [x]) ↔
      t ∈ l := by
  have h1 : (l.filter (fun v => v ≠ x) ++ [y]).filter (fun v => v ≠ y) =
      l.filter (fun v => v ≠ x) := by
    rw [List.filter_append]
    have h2 : ([y].filter (fun v => v ≠ y)) = [] := by simp
    rw [h2, List.append_nil]
    apply List.filter_eq_self.mpr
    intro u hu
    rw [List.mem_filter] at hu
    refine decide_eq_true ?_
    intro huy
    subst huy
    exact hy hu.1
  rw [h1]
  exact mem_filter_ne_append_self hx t

theorem renameWrites_gidx_none (s : TenantMetadataState) (oldName newName : TenantName)
    (tenantId : Nat) (entry1 : TenantMapEntry) (hg : entry1.tenantGroup = none) :
    (renameWrites s oldName newName tenantId entry1).tenantGroupTenantIndex =
      s.tenantGroupTenantIndex := by
  unfold renameWrites
  rw [hg]

theorem renameWrites_gidx_some (s : TenantMetadataState) (oldName newName : TenantName)
    (tenantId : Nat) (entry1 : TenantMapEntry) (g : TenantGroupName)
    (hg : entry1.tenantGroup = some g) :
    (renameWrites s oldName newName tenantId entry1).tenantGroupTenantIndex =
      (s.tenantGroupTenantIndex.filter (fun t => t ≠ (g, oldName, tenantId))) ++
        [(g, newName, tenantId)] := by
  unfold renameWrites
  rw [hg]

/-- C6 counterexample: a retried `Rename("a","b")` (the `firstTry == false`
iteration) taken from a state where the first commit did not apply — the
entry still carries `"a"` — neither succeeds silently nor throws
`tenant_not_found`: it re-performs the rename. -/
theorem renameTenantRetry_counterexample :
    renameTenantRetryStep c6RetryState [97] [98] 5 0 0 0 ≠ .silentSuccess ∧
    renameTenantRetryStep c6RetryState [97] [98] 5 0 0 0 ≠
      .failed .tenantNotFound := by
  decide

/-- C6 (corrected): on a standalone cluster a committed `Rename(a,b)` followed
by a committed `Rename(b,a)` restores the tenant map exactly and the name
index and group-tenant index up to lookup and membership. The spec's retry
dichotomy is wrong: a retried `Rename(a,b)` after a commit-unknown result has
five outcomes — `tenant_not_found` when the entry is gone or carries neither
name, silent success when the entry already carries `b`,
`tenant_already_exists` when `b` is indexed to a different tenant, and a
re-performed rename when the first commit did not apply and the entry still
carries `a` (refuting the claimed succeed-silently-or-`tenant_not_found`
alternative). -/
theorem renameTenant_roundtrip_and_retry :
    (∀ (s : TenantMetadataState) (a b : TenantName) (tenantId : Nat)
        (entry : TenantMapEntry) (rv tci vps : Nat),
      a ≠ b →
      checkTenantMode s .standalone = .ok () →
      alookup s.tenantNameIndex a = some tenantId →
      alookup s.tenantMap tenantId = some entry →
      entry.tenantName = a →
      alookup s.tenantNameIndex b = none →
      (∀ g, entry.tenantGroup = some g →
        (g, a, tenantId) ∈ s.tenantGroupTenantIndex ∧
        (g, b, tenantId) ∉ s.tenantGroupTenantIndex) →
      ∃ s1 s2,
        renameTenantTransaction s a b none .standalone none rv tci vps = .ok s1 ∧
        renameTenantTransaction s1 b a none .standalone none rv tci vps = .ok s2 ∧
        s2.tenantMap = s.tenantMap ∧
        (∀ n, alookup s2.tenantNameIndex n = alookup s.tenantNameIndex n) ∧
        (∀ t, t ∈ s2.tenantGroupTenantIndex ↔ t ∈ s.tenantGroupTenantIndex) ∧
        s2.tenantGroupMap = s.tenantGroupMap ∧
        s2.tenantCount = s.tenantCount) ∧
    (∀ (s : TenantMetadataState) (a b : TenantName) (tenantId rv tci vps : Nat),
      (alookup s.tenantMap tenantId = none →
        renameTenantRetryStep s a b tenantId rv tci vps = .failed .tenantNotFound) ∧
      (∀ entry, alookup s.tenantMap tenantId = some entry →
        entry.tenantName = b →
        renameTenantRetryStep s a b tenantId rv tci vps = .silentSuccess) ∧
      (∀ entry, alookup s.tenantMap tenantId = some entry →
        entry.tenantName ≠ b → entry.tenantName ≠ a →
        renameTenantRetryStep s a b tenantId rv tci vps = .failed .tenantNotFound) ∧
      (∀ entry, alookup s.tenantMap tenantId = some entry →
        entry.tenantName ≠ b → entry.tenantName = a →
        (alookup s.tenantNameIndex b).isSome = true →
        alookup s.tenantNameIndex b ≠ some tenantId →
        renameTenantRetryStep s a b tenantId rv tci vps =
          .failed .tenantAlreadyExists) ∧
      (∀ entry, alookup s.tenantMap tenantId = some entry →
        entry.tenantName ≠ b → entry.tenantName = a →
        checkTenantMode s .standalone = .ok () →
        alookup s.tenantNameIndex b = none →
        ∃ s', renameTenantRetryStep s a b tenantId rv tci vps = .renamed s')) := by
  constructor
  · intro s a b tenantId entry rv tci vps hab hmode hidx hmap hname hnew hgrp
    obtain ⟨f1map, f1idx, f1gm, f1cnt, f1mode, f1act, -⟩ :=
      renameWrites_fields s a b tenantId entry
    have h1 : renameTenantTransaction s a b none .standalone none rv tci vps =
        .ok (renameWrites s a b tenantId entry) :=
      renameTenantTransaction_ok_of none rv tci vps (by exact hidx) hmode hmap
        hname hnew
    have hmode1 :
        checkTenantMode (renameWrites s a b tenantId entry) .standalone =
          .ok () := by
      unfold checkTenantMode at hmode ⊢
      rw [f1act, f1mode]
      exact hmode
    have hidx1 :
        alookup (renameWrites s a b tenantId entry).tenantNameIndex b =
          some tenantId := by
      rw [f1idx, alookup_aerase_ne _ _ _ hab, alookup_aset]
    have hmap1 :
        alookup (renameWrites s a b tenantId entry).tenantMap tenantId =
          some { entry with tenantName := b } := by
      rw [f1map]
      exact alookup_aset _ _ _
    have hnew1 :
        alookup (renameWrites s a b tenantId entry).tenantNameIndex a = none := by
      rw [f1idx]
      exact alookup_aerase_self _ _
    have h2 : renameTenantTransaction (renameWrites s a b tenantId entry) b a none
        .standalone none rv tci vps =
        .ok (renameWrites (renameWrites s a b tenantId entry) b a tenantId
          { entry with tenantName := b }) :=
      renameTenantTransaction_ok_of none rv tci vps (by exact hidx1) hmode1 hmap1
        rfl hnew1
    obtain ⟨f2map, f2idx, f2gm, f2cnt, -, -, -⟩ :=
      renameWrites_fields (renameWrites s a b tenantId entry) b a tenantId
        { entry with tenantName := b }
    refine ⟨_, _, h1, h2, ?_, ?_, ?_, ?_, ?_⟩
    · rw [f2map, f1map]
      exact (congrArg
        (aset (aset s.tenantMap tenantId { entry with tenantName := b }) tenantId)
        (entry_rename_back hname)).trans (aset_aset_cancel hmap _)
    · intro n
      rw [f2idx, f1idx]
      by_cases hnb : n = b
      · subst hnb
        rw [alookup_aerase_self, hnew]
      · by_cases hna : n = a
        · subst hna
          rw [alookup_aerase_ne _ _ _ (Ne.symm hab), alookup_aset, hidx]
        · rw [alookup_aerase_ne _ _ _ (Ne.symm hnb),
            alookup_aset_ne _ _ _ _ (Ne.symm hna),
            alookup_aerase_ne _ _ _ (Ne.symm hna),
            alookup_aset_ne _ _ _ _ (Ne.symm hnb)]
    · intro t
      cases hg : entry.tenantGroup with
      | none =>
        rw [renameWrites_gidx_none (renameWrites s a b tenantId entry) b a tenantId
          { id := entry.id, tenantName := b, tenantGroup := none,
            configurationSequenceNum := entry.configurationSequenceNum } rfl,
          renameWrites_gidx_none s a b tenantId entry hg]
      | some g =>
        rw [renameWrites_gidx_some (renameWrites s a b tenantId entry) b a tenantId
          { id := entry.id, tenantName := b, tenantGroup := some g,
            configurationSequenceNum := entry.configurationSequenceNum } g rfl,
          renameWrites_gidx_some s a b tenantId entry g hg]
        obtain ⟨hin, hout⟩ := hgrp g hg
        exact roundtrip_group_index hin hout t
    · rw [f2gm, f1gm]
    · rw [f2cnt, f1cnt]
  · intro s a b tenantId rv tci vps
    refine ⟨?_, ?_, ?_, ?_, ?_⟩
    · intro hmap
      unfold renameTenantRetryStep
      rw [hmap]
    · intro entry hmap hb
      unfold renameTenantRetryStep
      rw [hmap]
      dsimp only
      rw [if_pos hb]
    · intro entry hmap hb ha
      unfold renameTenantRetryStep
      rw [hmap]
      dsimp only
      rw [if_neg hb, if_pos ha]
    · intro entry hmap hb ha hsome hne
      unfold renameTenantRetryStep
      rw [hmap]
      dsimp only
      rw [if_neg hb, if_neg (not_not_intro ha), if_pos ⟨hsome, hne⟩]
    · intro entry hmap hb ha hmode hnew
      refine ⟨renameWrites s a b tenantId entry, ?_⟩
      have hok := renameTenantTransaction_ok_of (some tenantId) rv tci vps rfl
        hmode hmap ha hnew
      unfold renameTenantRetryStep
      rw [hmap]
      dsimp only
      rw [if_neg hb, if_neg (not_not_intro ha),
        if_neg (fun hcon => by simp [hnew] at hcon), hok]

/-- Witness for the C6 roundtrip at the concrete grouped state `c6State`:
`Rename("a","b")` then `Rename("b","a")` restores map, name index,
group-tenant index, group map and count. -/
theorem renameTenant_roundtrip_and_retry_witness :
    ∃ s1 s2,
      renameTenantTransaction c6State [97] [98] none .standalone none 0 0 0 =
        .ok s1 ∧
      renameTenantTransaction s1 [98] [97] none .standalone none 0 0 0 =
        .ok s2 ∧
      s2.tenantMap = c6State.tenantMap ∧
      (∀ n, alookup s2.tenantNameIndex n = alookup c6State.tenantNameIndex n) ∧
      (∀ t, t ∈ s2.tenantGroupTenantIndex ↔ t ∈ c6State.tenantGroupTenantIndex) ∧
      s2.tenantGroupMap = c6State.tenantGroupMap ∧
      s2.tenantCount = c6State.tenantCount :=
  renameTenant_roundtrip_and_retry.1 c6State [97] [98] 5 c6Entry 0 0 0
    (by decide) (by decide) (by decide) (by decide) (by decide) (by decide)
    (fun g hg => by
      have hg' : some ([103] : TenantGroupName) = some g := hg
      cases hg'
      exact ⟨by decide, by decide⟩)

theorem resumeLoop_cons_nodest (lte : Bool) (mst : Nat) (k : Nat)
    (s2 : DDShardInfo) (rest : List DDShardInfo) (oc : Nat) :
    resumeFromShardsLoop resumeTestConfig ⟨lte, mst⟩ (fun _ => none)
      (doubleToNoLocationShardInfo k false :: s2 :: rest) [] oc =
    resumeFromShardsLoop resumeTestConfig ⟨lte, mst⟩ (fun _ => none)
      (s2 :: rest) [] oc := by
  simp [resumeFromShardsLoop, collectRanges, resumeRangesLoop, resumeShardRange,
    shardUnhealthy, doubleToNoLocationShardInfo, resumeTestConfig]

theorem resumeLoop_cons_dest (lte : Bool) (mst : Nat) (k : Nat)
    (s2 : DDShardInfo) (rest : List DDShardInfo) (oc : Nat) :
    resumeFromShardsLoop resumeTestConfig ⟨lte, mst⟩ (fun _ => none)
      (doubleToNoLocationShardInfo k true :: s2 :: rest) [] oc =
    mkRelocateShard ⟨k, s2.key⟩ .recoverMove ::
      resumeFromShardsLoop resumeTestConfig ⟨lte, mst⟩ (fun _ => none)
        (s2 :: rest) [] oc := by
  simp [resumeFromShardsLoop, collectRanges, resumeRangesLoop, resumeShardRange,
    shardUnhealthy, doubleToNoLocationShardInfo, resumeTestConfig,
    anonymousShardId]

theorem resumeLoop_nodest_list (lte : Bool) (mst : Nat) :
    ∀ (m k j oc : Nat),
    resumeFromShardsLoop resumeTestConfig ⟨lte, mst⟩ (fun _ => none)
      ((List.range' k m).map (fun i => doubleToNoLocationShardInfo i false) ++
        [boundaryShardInfo j]) [] oc = [] := by
  intro m
  induction m with
  | zero =>
    intro k j oc
    simp only [List.range', List.map_nil, List.nil_append]
    rfl
  | succ m ih =>
    intro k j oc
    rw [List.range'_succ, List.map_cons, List.cons_append]
    cases hm : (List.range' (k + 1) m).map
        (fun i => doubleToNoLocationShardInfo i false) ++ [boundaryShardInfo j] with
    | nil => simp at hm
    | cons s2 rest =>
      rw [resumeLoop_cons_nodest, ← hm]
      exact ih (k + 1) j oc

theorem resumeTestList_head_key (p m k : Nat) :
    (((List.range' k p).map (fun i => doubleToNoLocationShardInfo i true) ++
      ((List.range' (k + p) m).map (fun i => doubleToNoLocationShardInfo i false) ++
        [boundaryShardInfo (k + p + m)])).head?).map (fun s => s.key) = some k := by
  cases p with
  | zero =>
    cases m with
    | zero => simp [boundaryShardInfo]
    | succ m =>
      rw [List.range'_succ]
      simp [doubleToNoLocationShardInfo]
  | succ p =>
    rw [List.range'_succ]
    simp [doubleToNoLocationShardInfo]

theorem resumeLoop_dest_prefix (lte : Bool) (mst : Nat) :
    ∀ (p k m oc : Nat),
    resumeFromShardsLoop resumeTestConfig ⟨lte, mst⟩ (fun _ => none)
      ((List.range' k p).map (fun i => doubleToNoLocationShardInfo i true) ++
        ((List.range' (k + p) m).map (fun i => doubleToNoLocationShardInfo i false) ++
          [boundaryShardInfo (k + p + m)])) [] oc =
    (List.range' k p).map (fun i => mkRelocateShard ⟨i, i + 1⟩ .recoverMove) := by
  intro p
  induction p with
  | zero =>
    intro k m oc
    simp only [List.range', List.map_nil, List.nil_append, Nat.add_zero]
    exact resumeLoop_nodest_list lte mst m k (k + m) oc
  | succ p ih =>
    intro k m oc
    have hkey := resumeTestList_head_key p m (k + 1)
    have e1 : k + (p + 1) = (k + 1) + p := by omega
    rw [List.range'_succ, e1, List.map_cons, List.map_cons, List.cons_append]
    cases hm : (List.range' (k + 1) p).map
        (fun i => doubleToNoLocationShardInfo i true) ++
        ((List.range' ((k + 1) + p) m).map
          (fun i => doubleToNoLocationShardInfo i false) ++
          [boundaryShardInfo ((k + 1) + p + m)]) with
    | nil => simp at hm
    | cons s2 rest =>
      have hs2 : s2.key = k + 1 := by
        rw [hm] at hkey
        simpa using hkey
      rw [resumeLoop_cons_dest, hs2, ← hm, ih (k + 1) m oc]

/-- C8: on the `/DataDistribution/Initialization/ResumeFromShard` test input —
`n` shards `[i, i+1)` of which exactly the first `p` (the test's
`DD_MOVE_KEYS_PARALLELISM`) have a destination set, no custom boundaries, one
region and team size one — `resumeFromShards` emits exactly the `p`
relocations `[i, i+1)` for `i = 1..p` in order, each with priority
`PRIORITY_RECOVER_MOVE` and `cancelled = false`, for any
`ddLargeTeamEnabled()` and `DD_MAX_SHARDS_ON_LARGE_TEAMS` knob values. -/
theorem resumeFromShards_test_spec (p n : Nat) (lte : Bool) (mst : Nat)
    (hpn : p ≤ n) :
    resumeFromShards resumeTestConfig ⟨lte, mst⟩ (fun _ => none) []
      (resumeTestShards p n) =
      (List.range' 1 p).map (fun i => mkRelocateShard ⟨i, i + 1⟩ .recoverMove) ∧
    (resumeFromShards resumeTestConfig ⟨lte, mst⟩ (fun _ => none) []
      (resumeTestShards p n)).length = p ∧
    ∀ rs ∈ resumeFromShards resumeTestConfig ⟨lte, mst⟩ (fun _ => none) []
      (resumeTestShards p n),
      rs.priority = PRIORITY_RECOVER_MOVE ∧ rs.cancelled = false := by
  have e2 : (1 : Nat) + p + (n - p) = n + 1 := by omega
  have e1 : (1 : Nat) + p = p + 1 := by omega
  have h := resumeLoop_dest_prefix lte mst p 1 (n - p) 0
  rw [e2, e1] at h
  have hmain : resumeFromShards resumeTestConfig ⟨lte, mst⟩ (fun _ => none) []
      (resumeTestShards p n) =
      (List.range' 1 p).map (fun i => mkRelocateShard ⟨i, i + 1⟩ .recoverMove) := by
    unfold resumeFromShards resumeTestShards
    exact h
  refine ⟨hmain, ?_, ?_⟩
  · rw [hmain]
    simp
  · intro rs hrs
    rw [hmain] at hrs
    simp only [List.mem_map] at hrs
    obtain ⟨i, -, hrs⟩ := hrs
    subst hrs
    exact ⟨rfl, rfl⟩

/-- Witness for C8 at two in-flight shards among three. -/
theorem resumeFromShards_test_spec_witness :
    resumeFromShards resumeTestConfig ⟨false, 0⟩ (fun _ => none) []
      (resumeTestShards 2 3) =
      (List.range' 1 2).map (fun i => mkRelocateShard ⟨i, i + 1⟩ .recoverMove) ∧
    (resumeFromShards resumeTestConfig ⟨false, 0⟩ (fun _ => none) []
      (resumeTestShards 2 3)).length = 2 ∧
    ∀ rs ∈ resumeFromShards resumeTestConfig ⟨false, 0⟩ (fun _ => none) []
      (resumeTestShards 2 3),
      rs.priority = PRIORITY_RECOVER_MOVE ∧ rs.cancelled = false :=
  resumeFromShards_test_spec 2 3 false 0 (by decide)

end FdbDD
